import Mathlib

/-!
A verification model of the MSE coded-frame processing algorithm
(`media/filters/frame_processor.cc`) and of the PTS-indexed buffered range
(`media/filters/source_buffer_range_by_pts.cc`).

Timestamps (`base::TimeDelta`, `DecodeTimestamp`) are modelled as integer
microsecond counts; the `kNoTimestamp` / `kNoDecodeTimestamp()` sentinels are
modelled by `Option Int` with `none` meaning "unset".  Debug-only `DCHECK`s
are no-ops (as in release builds); release-mode `CHECK`s that abort the
process are modelled by an `Option` result where `none` means "aborted".
-/

set_option maxHeartbeats 1600000

namespace Media

/-- Media stream type of a track or frame (`DemuxerStream::Type`). -/
inductive MediaType
  | audio
  | video
  | text
deriving Repr, DecidableEq

/-- A parsed media frame (`StreamParserBuffer`).  `discard_front` /
`discard_back` are the two halves of `discard_padding()`; `has_preroll`
records that `SetPrerollBuffer` was called on the frame. -/
structure Frame where
  pts : Option Int
  dts : Option Int
  duration : Option Int
  is_key_frame : Bool
  track_id : Nat
  type : MediaType
  data_size : Nat
  end_of_stream : Bool
  discard_front : Int
  discard_back : Int
  has_preroll : Bool
  config_id : Int
deriving Repr, DecidableEq

/-- Value of a set presentation timestamp (callers only use it after the
`kNoTimestamp` check has passed). -/
def Frame.ptsD (f : Frame) : Int := f.pts.getD 0

/-- Value of a set decode timestamp. -/
def Frame.dtsD (f : Frame) : Int := f.dts.getD 0

/-- Value of a set duration. -/
def Frame.durD (f : Frame) : Int := f.duration.getD 0

/-- Modelled from the spec: the per-track sink (`ChunkDemuxerStream`, outside
src/) is "a sink per track exposing `Append(orderedFrameBatch) -> bool`,
`NotifyCodedFrameGroupStart(timestamp)`, a declared media type, and a
capability flag" for partial append-window trimming.  `appendOk` is the
sink's fixed answer to `Append`; `appended` and `group_starts` record the
calls it received. -/
structure ChunkDemuxerStream where
  type : MediaType
  supportsPartialTrimming : Bool
  appendOk : Bool
  appended : List Frame
  group_starts : List Int
deriving Repr, DecidableEq

/-- `ChunkDemuxerStream::Append`: on success the batch is recorded, on
failure nothing is. -/
def ChunkDemuxerStream.Append (s : ChunkDemuxerStream) (q : List Frame) :
    ChunkDemuxerStream × Bool :=
  if s.appendOk then ({ s with appended := s.appended ++ q }, true) else (s, false)

/-- Per-track bookkeeping (`MseTrackBuffer` in frame_processor.cc).
`last_processed_decode_timestamp` is initialized to `DecodeTimestamp()`
(zero), is always set, and deliberately survives `Reset()`. -/
structure MseTrackBuffer where
  last_decode_timestamp : Option Int
  last_processed_decode_timestamp : Int
  last_keyframe_presentation_timestamp : Option Int
  last_frame_duration : Option Int
  highest_presentation_timestamp : Option Int
  needs_random_access_point : Bool
  stream : ChunkDemuxerStream
  processed_frames : List Frame
deriving Repr, DecidableEq

/-- A freshly constructed track buffer for `stream` (MseTrackBuffer
constructor). -/
def MseTrackBuffer.mk0 (stream : ChunkDemuxerStream) : MseTrackBuffer :=
  { last_decode_timestamp := none
    last_processed_decode_timestamp := 0
    last_keyframe_presentation_timestamp := none
    last_frame_duration := none
    highest_presentation_timestamp := none
    needs_random_access_point := true
    stream := stream
    processed_frames := [] }

/-- `MseTrackBuffer::Reset()`: unsets `last_decode_timestamp_`,
`last_frame_duration_`, `highest_presentation_timestamp_`,
`last_keyframe_presentation_timestamp_`, and sets
`needs_random_access_point_` to true. -/
def MseTrackBuffer.Reset (tb : MseTrackBuffer) : MseTrackBuffer :=
  { tb with
    last_decode_timestamp := none
    last_frame_duration := none
    highest_presentation_timestamp := none
    needs_random_access_point := true
    last_keyframe_presentation_timestamp := none }

/-- `MseTrackBuffer::SetHighestPresentationTimestampIfIncreased`. -/
def MseTrackBuffer.SetHighestPresentationTimestampIfIncreased
    (tb : MseTrackBuffer) (timestamp : Int) : MseTrackBuffer :=
  match tb.highest_presentation_timestamp with
  | none => { tb with highest_presentation_timestamp := some timestamp }
  | some h =>
      if timestamp > h then { tb with highest_presentation_timestamp := some timestamp }
      else tb

/-- `MseTrackBuffer::EnqueueProcessedFrame`: tracks the last keyframe PTS,
updates `last_processed_decode_timestamp_` and appends to the staging
queue.  (The keyframe-time-greater-than-dependant path is a bounded warning
only.) -/
def MseTrackBuffer.EnqueueProcessedFrame (tb : MseTrackBuffer) (f : Frame) :
    MseTrackBuffer :=
  { tb with
    last_keyframe_presentation_timestamp :=
      if f.is_key_frame then f.pts else tb.last_keyframe_presentation_timestamp
    last_processed_decode_timestamp := f.dtsD
    processed_frames := tb.processed_frames ++ [f] }

/-- `MseTrackBuffer::FlushProcessedFrames`: appends the staging queue to the
stream and clears it in both the success and the failure case. -/
def MseTrackBuffer.FlushProcessedFrames (tb : MseTrackBuffer) :
    MseTrackBuffer × Bool :=
  if tb.processed_frames = [] then (tb, true)
  else
    let r := tb.stream.Append tb.processed_frames
    ({ tb with stream := r.1, processed_frames := [] }, r.2)

/-- `MseTrackBuffer::NotifyStartOfCodedFrameGroup`. -/
def MseTrackBuffer.NotifyStartOfCodedFrameGroup (tb : MseTrackBuffer)
    (start_time : Int) : MseTrackBuffer :=
  { tb with
    last_keyframe_presentation_timestamp := none
    last_processed_decode_timestamp := start_time
    stream := { tb.stream with group_starts := tb.stream.group_starts ++ [start_time] } }

/-- The frame processor state (`FrameProcessor`).  `timestamp_offset` is the
caller's by-reference `*timestamp_offset` argument of `ProcessFrames`,
threaded through the state for the duration of a batch;
`duration_updates` records the calls to `update_duration_cb_`. -/
structure FrameProcessor where
  sequence_mode : Bool
  pending_notify_all_group_start : Bool
  group_start_timestamp : Option Int
  group_end_timestamp : Int
  timestamp_offset : Int
  tracks : List (Nat × MseTrackBuffer)
  audio_preroll_buffer : Option Frame
  sample_duration : Int
  duration_updates : List Int
deriving Repr, DecidableEq

/-- `FrameProcessor::FindTrack` over the track-buffer map (association list
with unique keys, mirroring `std::map<TrackId, ...>`). -/
def FrameProcessor.FindTrack : List (Nat × MseTrackBuffer) → Nat →
    Option MseTrackBuffer
  | [], _ => none
  | kv :: t, id => if kv.1 = id then some kv.2 else FrameProcessor.FindTrack t id

/-- Point update of the track with the given id (mutation through the
`MseTrackBuffer*` obtained from `FindTrack`). -/
def updateTrack (l : List (Nat × MseTrackBuffer)) (id : Nat)
    (g : MseTrackBuffer → MseTrackBuffer) : List (Nat × MseTrackBuffer) :=
  l.map fun kv => if kv.1 = id then (kv.1, g kv.2) else kv

/-- `FrameProcessor::SetAllTrackBuffersNeedRandomAccessPoint`. -/
def SetAllTrackBuffersNeedRandomAccessPoint (l : List (Nat × MseTrackBuffer)) :
    List (Nat × MseTrackBuffer) :=
  l.map fun kv => (kv.1, { kv.2 with needs_random_access_point := true })

/-- The track-map part of `FrameProcessor::Reset`: every track buffer is
reset. -/
def resetAllTracks (l : List (Nat × MseTrackBuffer)) : List (Nat × MseTrackBuffer) :=
  l.map fun kv => (kv.1, kv.2.Reset)

/-- `FrameProcessor::Reset`: resets all track buffers; in segments mode it
arms `pending_notify_all_group_start_`, in sequence mode it instead rolls
the group start timestamp to the group end timestamp. -/
def FrameProcessor.Reset (p : FrameProcessor) : FrameProcessor :=
  let p1 := { p with tracks := resetAllTracks p.tracks }
  if p.sequence_mode = false then { p1 with pending_notify_all_group_start := true }
  else { p1 with group_start_timestamp := some p.group_end_timestamp }

/-- `FrameProcessor::NotifyStartOfCodedFrameGroup` (all tracks). -/
def FrameProcessor.NotifyStartOfCodedFrameGroup (p : FrameProcessor)
    (start_timestamp : Int) : FrameProcessor :=
  { p with tracks := p.tracks.map fun kv =>
      (kv.1, kv.2.NotifyStartOfCodedFrameGroup start_timestamp) }

/-- List part and success bit of `FrameProcessor::FlushProcessedFrames`:
every track buffer is flushed (even after one fails), and the result is
false if any flush failed. -/
def flushTracks (l : List (Nat × MseTrackBuffer)) : List (Nat × MseTrackBuffer) × Bool :=
  (l.map fun kv => (kv.1, kv.2.FlushProcessedFrames.1),
   l.all fun kv => kv.2.FlushProcessedFrames.2)

/-- `FrameProcessor::FlushProcessedFrames`. -/
def FrameProcessor.FlushProcessedFrames (p : FrameProcessor) : FrameProcessor × Bool :=
  let r := flushTracks p.tracks
  ({ p with tracks := r.1 }, r.2)

/-- The audio all-frames-are-keyframes enforcement at the top of the
`ProcessFrame` loop (a bounded warning, then `set_is_key_frame(true)`). -/
def forceAudioKeyframe (f : Frame) : Frame :=
  if f.type = MediaType.audio ∧ f.is_key_frame = false then
    { f with is_key_frame := true }
  else f

/-- Step 3 of the coded frame processing algorithm: in sequence mode with a
set group start timestamp, rewrite the timestamp offset to
(group start − presentation timestamp), set group end to group start, set
the needs-random-access-point flag on all track buffers, and unset the
group start timestamp. -/
def applyPendingGroupStart (p : FrameProcessor) (presentation_timestamp : Int) :
    FrameProcessor :=
  match p.group_start_timestamp with
  | some gs =>
      if p.sequence_mode then
        { p with
          timestamp_offset := gs - presentation_timestamp
          group_end_timestamp := gs
          tracks := SetAllTrackBuffersNeedRandomAccessPoint p.tracks
          group_start_timestamp := none }
      else p
  | none => p

/-- Step 4: if the timestamp offset is not zero, add it to the local PTS and
DTS copies. -/
def applyOffset (off pv dv : Int) : Int × Int :=
  if off = 0 then (pv, dv) else (pv + off, dv + off)

/-- Step 6 condition: the track has a last decode timestamp and the new DTS
either moves backwards or jumps by more than twice the last frame duration.
`last_frame_duration` is only unset when `last_decode_timestamp` is unset;
the sentinel is the numerically minimal `TimeDelta` (whose doubling
saturates at the minimum), so the `none` arm of the inner match is the
comparison against that minimal value, which holds for every real delta. -/
def discontinuityCond (tb : MseTrackBuffer) (decode_timestamp : Int) : Bool :=
  match tb.last_decode_timestamp with
  | none => false
  | some last =>
      let delta := decode_timestamp - last
      decide (delta < 0) ||
        (match tb.last_frame_duration with
         | some d => decide (delta > 2 * d)
         | none => true)

/-- `FrameProcessor::HandlePartialAppendWindowTrimming`.  Returns the state
(the preroll buffer may be consumed or replaced), the possibly trimmed
frame, and the `processed_buffer` flag. -/
def HandlePartialAppendWindowTrimming (p : FrameProcessor)
    (append_window_start append_window_end : Int) (f : Frame) :
    FrameProcessor × Frame × Bool :=
  let frame_end_timestamp := f.ptsD + f.durD
  if f.ptsD < append_window_start ∧ frame_end_timestamp ≤ append_window_start then
    ({ p with audio_preroll_buffer := some f }, f, false)
  else if f.ptsD ≥ append_window_end then (p, f, false)
  else
    let st : FrameProcessor × Frame × Bool :=
      match p.audio_preroll_buffer with
      | some pre =>
          let delta := pre.ptsD + pre.durD - f.ptsD
          if |delta| < p.sample_duration then
            ({ p with audio_preroll_buffer := none },
             { f with has_preroll := true }, true)
          else ({ p with audio_preroll_buffer := none }, f, false)
      | none => (p, f, false)
    let f1 := st.2.1
    let s2 : Frame × Bool :=
      if f1.ptsD < append_window_start then
        ({ f1 with
            discard_front := append_window_start - f1.ptsD
            discard_back := 0
            pts := some append_window_start
            dts := some (f1.dtsD + (append_window_start - f1.ptsD))
            duration := some (frame_end_timestamp - append_window_start) }, true)
      else (f1, st.2.2)
    let s3 : Frame × Bool :=
      if frame_end_timestamp > append_window_end then
        ({ s2.1 with
            discard_back := frame_end_timestamp - append_window_end
            duration := some (append_window_end - s2.1.ptsD) }, true)
      else s2
    (st.1, s3.1, s3.2)

/-- Outcome of one pass of the loop inside `FrameProcessor::ProcessFrame`:
`done` is a `return`, `retry` is the "jump to the Loop Top step to restart
processing of the current coded frame" `continue`. -/
inductive LoopOutcome
  | done : FrameProcessor → Frame → Bool → LoopOutcome
  | retry : FrameProcessor → Frame → LoopOutcome
deriving Repr, DecidableEq

/-- Whether a loop outcome is the discontinuity `continue`. -/
def LoopOutcome.isRetry : LoopOutcome → Bool
  | .retry _ _ => true
  | .done _ _ _ => false

/-- Steps 11-19 of the loop on the frame's track buffer: enqueue the
processed frame and update the track's last DTS, last (pre-trimming)
duration, and highest PTS. -/
def commitTransform (f : Frame)
    (decode_timestamp frame_duration frame_end_timestamp : Int)
    (tb : MseTrackBuffer) : MseTrackBuffer :=
  let tb1 := tb.EnqueueProcessedFrame f
  { tb1 with
    last_decode_timestamp := some decode_timestamp
    last_frame_duration := some frame_duration
    } |>.SetHighestPresentationTimestampIfIncreased frame_end_timestamp

/-- Steps 11-20 tail of the loop: enqueue the processed frame, update the
track bookkeeping, and update the processor's group end timestamp. -/
def commitFrame (p : FrameProcessor) (f : Frame)
    (decode_timestamp frame_duration frame_end_timestamp : Int) : LoopOutcome :=
  let newTracks := updateTrack p.tracks f.track_id
    (commitTransform f decode_timestamp frame_duration frame_end_timestamp)
  let p1 := { p with tracks := newTracks }
  .done { p1 with group_end_timestamp :=
            if frame_end_timestamp > p1.group_end_timestamp then frame_end_timestamp
            else p1.group_end_timestamp } f true

/-- The coded-frame-group signalling step and the commit tail: when a new
coded frame group must be signalled, first flush all staged frames (failing
the whole batch if that fails), then notify either all tracks or just this
frame's track. -/
def signalAndCommit (p : FrameProcessor) (f : Frame) (tb : MseTrackBuffer)
    (decode_timestamp frame_duration frame_end_timestamp : Int) : LoopOutcome :=
  if p.pending_notify_all_group_start ∨
     tb.last_processed_decode_timestamp > decode_timestamp then
    let fl := p.FlushProcessedFrames
    if fl.2 = false then .done fl.1 f false
    else
      let p3 :=
        if fl.1.pending_notify_all_group_start then
          { fl.1.NotifyStartOfCodedFrameGroup decode_timestamp with
            pending_notify_all_group_start := false }
        else
          { fl.1 with tracks := updateTrack fl.1.tracks f.track_id fun tb2 =>
              tb2.NotifyStartOfCodedFrameGroup decode_timestamp }
      commitFrame p3 f decode_timestamp frame_duration frame_end_timestamp
  else commitFrame p f decode_timestamp frame_duration frame_end_timestamp

/-- Steps 8-10: append-window filtering, the negative-DTS parse failure, and
the need-random-access-point gate, followed by the signalling/commit tail. -/
def windowAndCommit (p : FrameProcessor) (f : Frame) (tb : MseTrackBuffer)
    (presentation_timestamp decode_timestamp frame_duration frame_end_timestamp
     append_window_start append_window_end : Int) : LoopOutcome :=
  if presentation_timestamp < append_window_start ∨
     frame_end_timestamp > append_window_end then
    .done { p with tracks := updateTrack p.tracks f.track_id fun tb2 =>
              { tb2 with needs_random_access_point := true } } f true
  else if decode_timestamp < 0 then .done p f false
  else if tb.needs_random_access_point then
    if f.is_key_frame = false then .done p f true
    else
      signalAndCommit
        { p with tracks := updateTrack p.tracks f.track_id fun tb2 =>
            { tb2 with needs_random_access_point := false } }
        f { tb with needs_random_access_point := false }
        decode_timestamp frame_duration frame_end_timestamp
  else signalAndCommit p f tb decode_timestamp frame_duration frame_end_timestamp

/-- Step 7 plus the partial append-window trimming: writes the offset PTS and
DTS back into the frame, optionally trims it, and recomputes the local
PTS/DTS/frame-end values if the frame was trimmed (the local duration is
deliberately left at the original value). -/
def trimAndCommit (p : FrameProcessor) (f : Frame) (tb : MseTrackBuffer)
    (presentation_timestamp decode_timestamp frame_duration
     append_window_start append_window_end : Int) : LoopOutcome :=
  let frame_end_timestamp := presentation_timestamp + frame_duration
  let f2 := { f with pts := some presentation_timestamp, dts := some decode_timestamp }
  if tb.stream.supportsPartialTrimming then
    let r := HandlePartialAppendWindowTrimming p append_window_start append_window_end f2
    if r.2.2 then
      windowAndCommit r.1 r.2.1 tb r.2.1.ptsD r.2.1.dtsD frame_duration
        (r.2.1.ptsD + r.2.1.durD) append_window_start append_window_end
    else
      windowAndCommit r.1 r.2.1 tb presentation_timestamp decode_timestamp
        frame_duration frame_end_timestamp append_window_start append_window_end
  else
    windowAndCommit p f2 tb presentation_timestamp decode_timestamp frame_duration
      frame_end_timestamp append_window_start append_window_end

/-- Steps 5-6: track lookup, type check and discontinuity detection; a
discontinuity updates the group timestamps, resets the processor and
restarts the loop for the same frame. -/
def lookupAndDiscontinuity (p : FrameProcessor) (f : Frame)
    (presentation_timestamp decode_timestamp frame_duration
     append_window_start append_window_end : Int) : LoopOutcome :=
  match FrameProcessor.FindTrack p.tracks f.track_id with
  | none => .done p f false
  | some tb =>
      if f.type ≠ tb.stream.type then .done p f false
      else if discontinuityCond tb decode_timestamp then
        let p2 :=
          if p.sequence_mode = false then
            { p with group_end_timestamp := presentation_timestamp }
          else p
        .retry p2.Reset f
      else
        trimAndCommit p f tb presentation_timestamp decode_timestamp frame_duration
          append_window_start append_window_end

/-- One pass of the loop inside `FrameProcessor::ProcessFrame` (steps 1-20
for the current frame, up to `return` or the discontinuity `continue`). -/
def processFrameLoopBody (p : FrameProcessor) (f0 : Frame)
    (append_window_start append_window_end : Int) : LoopOutcome :=
  let f := forceAudioKeyframe f0
  match f.pts, f.dts, f.duration with
  | some pv, some dv, some du =>
      if du < 0 then .done p f false
      else
        let p1 := applyPendingGroupStart p pv
        let pd := applyOffset p1.timestamp_offset pv dv
        lookupAndDiscontinuity p1 f pd.1 pd.2 du append_window_start append_window_end
  | _, _, _ => .done p f false

/-- `FrameProcessor::ProcessFrame`: the `while (true)` loop.  A
discontinuity reset restarts the loop once for the same frame; by
construction of the algorithm the second pass cannot retry again (the final
arm is the `NOTREACHED()` fall-through, modelled as failure). -/
def FrameProcessor.ProcessFrame (p : FrameProcessor) (f : Frame)
    (append_window_start append_window_end : Int) :
    FrameProcessor × Frame × Bool :=
  match processFrameLoopBody p f append_window_start append_window_end with
  | .done p1 f1 b => (p1, f1, b)
  | .retry p1 f1 =>
      match processFrameLoopBody p1 f1 append_window_start append_window_end with
      | .done p2 f2 b => (p2, f2, b)
      | .retry p2 f2 => (p2, f2, false)

/-- Whether the discontinuity `continue` fires on both passes for one frame
(the situation the `NOTREACHED()` in `ProcessFrame` asserts impossible). -/
def retryTwice (p : FrameProcessor) (f : Frame)
    (append_window_start append_window_end : Int) : Bool :=
  match processFrameLoopBody p f append_window_start append_window_end with
  | .retry p1 f1 =>
      (processFrameLoopBody p1 f1 append_window_start append_window_end).isRetry
  | .done _ _ _ => false

/-- The outer loop of `FrameProcessor::ProcessFrames` over the merged frame
sequence: a frame failure flushes staged frames and aborts the batch. -/
def processLoop : FrameProcessor → List Frame → Int → Int → FrameProcessor × Bool
  | p, [], _, _ => (p, true)
  | p, f :: rest, ws, we =>
      let r := p.ProcessFrame f ws we
      if r.2.2 then processLoop r.1 rest ws we
      else (r.1.FlushProcessedFrames.1, false)

/-- `FrameProcessor::ProcessFrames` on the already merged (decode-order)
frame sequence.  (`MergeBufferQueues` lives in the stream-parser layer
outside src/ and is not needed by any claim: the batch enters here already
merged.)  On success the final flush runs and the duration-update callback
is invoked with the group end timestamp. -/
def FrameProcessor.ProcessFrames (p : FrameProcessor) (frames : List Frame)
    (append_window_start append_window_end : Int) : FrameProcessor × Bool :=
  let lr := processLoop p frames append_window_start append_window_end
  if lr.2 = false then (lr.1, false)
  else
    let fl := lr.1.FlushProcessedFrames
    if fl.2 = false then (fl.1, false)
    else
      ({ fl.1 with duration_updates :=
          fl.1.duration_updates ++ [fl.1.group_end_timestamp] }, true)

/-! ### SourceBufferRangeByPts -/

/-- Sum of the `data_size()` of a list of buffers. -/
def sumSizes : List Frame → Nat
  | [] => 0
  | b :: t => b.data_size + sumSizes t

/-- The keyframe index built by `AppendBuffersToEnd`: for every keyframe at
(absolute) position `i` of the buffer list an entry `(dts, i)`, positions
starting at `base` (`keyframe_map_index_base_`-adjusted indices). -/
def kfMap : List Frame → Nat → List (Int × Nat)
  | [], _ => []
  | b :: t, i =>
      if b.is_key_frame then (b.dtsD, i) :: kfMap t (i + 1) else kfMap t (i + 1)

/-- The buffered range (`SourceBufferRangeByPts`).  `keyframe_map` is the
`std::map` as its ascending entry list; `range_start` is
`range_start_decode_time_`; `highest_end` is the cached end time carried by
`highest_frame_` (modelled as the cached end timestamp itself);
`next_buffer_index` is -1 when there is no next-buffer position.
`gap_allow`, `fudge` and `approx_dur` stand for the base-class
`gap_policy_`, `GetFudgeRoom()` and `GetApproximateDuration()` (the latter
two are externally derived heuristics, see `IsNextInDecodeSequence`). -/
structure SourceBufferRangeByPts where
  buffers : List Frame
  keyframe_map : List (Int × Nat)
  keyframe_map_index_base : Nat
  range_start : Option Int
  size_in_bytes : Nat
  highest_end : Option Int
  next_buffer_index : Int
  gap_allow : Bool
  fudge : Int
  approx_dur : Int
deriving Repr, DecidableEq

/-- `std::map::lower_bound` on the ascending entry list: the first entry
whose key is not less than `ts`. -/
def kfLowerBound : List (Int × Nat) → Int → Option (Int × Nat)
  | [], _ => none
  | e :: t, ts => if ts ≤ e.1 then some e else kfLowerBound t ts

/-- The entries strictly before `lower_bound ts` and the entries from
`lower_bound ts` on (the two sides of the `erase(lower_bound, end)` /
iterator arithmetic the source performs). -/
def kfSplitAtLB : List (Int × Nat) → Int → List (Int × Nat) × List (Int × Nat)
  | [], _ => ([], [])
  | e :: t, ts =>
      if ts ≤ e.1 then ([], e :: t)
      else
        let r := kfSplitAtLB t ts
        (e :: r.1, r.2)

/-- `SourceBufferRangeByPts::GetFirstKeyframeAtOrBefore`: `lower_bound`,
stepped back once unless it is `begin` or an exact hit.  `prev` carries the
entry just before the current position; `none` is only returned for an
empty map. -/
def kfAtOrBeforeAux (prev : Option (Int × Nat)) :
    List (Int × Nat) → Int → Option (Int × Nat)
  | [], _ => prev
  | e :: t, ts =>
      if ts ≤ e.1 then
        if e.1 = ts then some e
        else match prev with
          | none => some e
          | some pr => some pr
      else kfAtOrBeforeAux (some e) t ts

/-- `GetFirstKeyframeAtOrBefore` on a range's keyframe map. -/
def GetFirstKeyframeAtOrBefore (m : List (Int × Nat)) (ts : Int) :
    Option (Int × Nat) :=
  kfAtOrBeforeAux none m ts

/-- `std::lower_bound` over the buffer deque keyed by decode timestamp
(`GetBufferItrAt` with `skip_given_timestamp = false`), as an index. -/
def bufLowerBoundIdx : List Frame → Int → Nat
  | [], _ => 0
  | b :: t, ts => if b.dtsD < ts then bufLowerBoundIdx t ts + 1 else 0

/-- `SourceBufferRange::GetStartTimestamp`: the explicit range start, or the
first buffer's decode timestamp. -/
def GetStartTimestamp (r : SourceBufferRangeByPts) : Int :=
  match r.range_start with
  | some s => s
  | none => (r.buffers.head?.map Frame.dtsD).getD 0

/-- `SourceBufferRangeByPts::GetEndTimestamp`: the last buffer's decode
timestamp. -/
def GetEndTimestamp (r : SourceBufferRangeByPts) : Int :=
  (r.buffers.getLast?.map Frame.dtsD).getD 0

/-- `SourceBufferRangeByPts::GetBufferedEndTimestamp`: end timestamp plus
the last buffer's duration, falling back to the approximate duration when
that is unset or zero. -/
def GetBufferedEndTimestamp (r : SourceBufferRangeByPts) : Int :=
  let dur :=
    match r.buffers.getLast? with
    | some b =>
        match b.duration with
        | some d => if d = 0 then r.approx_dur else d
        | none => r.approx_dur
    | none => r.approx_dur
  GetEndTimestamp r + dur

/-- Modelled from the spec: base-class `SourceBufferRange::UpdateEndTime`
(not under src/) maintains the "cached highest end-timestamp (PTS+duration
of the frame(s) in the last GOP with largest end)"; folding a buffer into
the cache keeps the larger end timestamp. -/
def UpdateEndTime (cur : Option Int) (b : Frame) : Option Int :=
  match cur with
  | none => some (b.ptsD + b.durD)
  | some h => if b.ptsD + b.durD > h then some (b.ptsD + b.durD) else some h

/-- Fold of `UpdateEndTime` over a buffer list. -/
def foldUpdateEndTime : Option Int → List Frame → Option Int
  | cur, [] => cur
  | cur, b :: t => foldUpdateEndTime (UpdateEndTime cur b) t

/-- `SourceBufferRangeByPts::UpdateEndTimeUsingLastGOP` computed on explicit
components: clears the cache for an empty range, otherwise recomputes it
over the frames of the last GOP.  The outer `none` is the
`CHECK_GT(keyframe_map_.size(), 0u)` abort (nonempty buffers with an empty
keyframe map). -/
def UpdateEndTimeUsingLastGOP (bufs : List Frame) (m : List (Int × Nat))
    (base : Nat) : Option (Option Int) :=
  if bufs = [] then some none
  else
    match m.getLast? with
    | none => none
    | some e => some (foldUpdateEndTime none (bufs.drop (e.2 - base)))

/-- Modelled from the spec: base-class
`SourceBufferRange::IsNextInDecodeSequence` (not under src/) implements the
"next in decode sequence" rule — "exact match, or … contiguous" within the
derived fudge room (gaps also allowed under the ALLOW_GAPS policy). -/
def IsNextInDecodeSequence (r : SourceBufferRangeByPts) (ts : Int) : Bool :=
  let e := GetEndTimestamp r
  decide (e = ts) ||
    (decide (e < ts) && (r.gap_allow || decide (ts ≤ e + r.fudge)))

/-- `SourceBufferRangeByPts::CanAppendBuffersToEnd`. -/
def CanAppendBuffersToEnd (r : SourceBufferRangeByPts) (bufs : List Frame)
    (new_buffers_group_start_timestamp : Option Int) : Bool :=
  match new_buffers_group_start_timestamp with
  | none => IsNextInDecodeSequence r ((bufs.head?.map Frame.dtsD).getD 0)
  | some g => IsNextInDecodeSequence r g

/-- One `push_back` of the `AppendBuffersToEnd` loop: append the buffer,
update the cached end time and byte count, and index it if it is a
keyframe (`std::map::insert` with key `dts` and value
`buffers_.size() - 1 + keyframe_map_index_base_`; an existing key is left
untouched by `insert`, which sorted insertion below respects). -/
def kfInsert : List (Int × Nat) → Int → Nat → List (Int × Nat)
  | [], k, v => [(k, v)]
  | e :: t, k, v =>
      if k < e.1 then (k, v) :: e :: t
      else if k = e.1 then e :: t
      else e :: kfInsert t k v

/-- The body of the `AppendBuffersToEnd` loop over one buffer. -/
def appendOneBuffer (r : SourceBufferRangeByPts) (b : Frame) :
    SourceBufferRangeByPts :=
  { r with
    buffers := r.buffers ++ [b]
    highest_end := UpdateEndTime r.highest_end b
    size_in_bytes := r.size_in_bytes + b.data_size
    keyframe_map :=
      if b.is_key_frame then
        kfInsert r.keyframe_map b.dtsD (r.buffers.length + r.keyframe_map_index_base)
      else r.keyframe_map }

/-- The `AppendBuffersToEnd` loop over the whole new-buffer list. -/
def appendBuffersLoop : SourceBufferRangeByPts → List Frame →
    SourceBufferRangeByPts
  | r, [] => r
  | r, b :: t => appendBuffersLoop (appendOneBuffer r b) t

/-- `SourceBufferRangeByPts::AppendBuffersToEnd`; `none` is the
`CHECK(buffers_.empty() || CanAppendBuffersToEnd(...))` abort. -/
def AppendBuffersToEnd (r : SourceBufferRangeByPts) (new_buffers : List Frame)
    (new_buffers_group_start_timestamp : Option Int) :
    Option SourceBufferRangeByPts :=
  if r.buffers = [] ∨
     CanAppendBuffersToEnd r new_buffers new_buffers_group_start_timestamp = true then
    some (appendBuffersLoop r new_buffers)
  else none

/-- The `SourceBufferRangeByPts` constructor: an empty range with the given
policy/heuristic parameters and start time, populated through
`AppendBuffersToEnd(new_buffers, range_start_decode_time_)`; `none` is the
`CHECK(!new_buffers.empty())` abort. -/
def mkSourceBufferRangeByPts (gap_allow : Bool) (fudge approx_dur : Int)
    (new_buffers : List Frame) (range_start_decode_time : Option Int) :
    Option SourceBufferRangeByPts :=
  if new_buffers = [] then none
  else
    AppendBuffersToEnd
      { buffers := []
        keyframe_map := []
        keyframe_map_index_base := 0
        range_start := range_start_decode_time
        size_in_bytes := 0
        highest_end := none
        next_buffer_index := -1
        gap_allow := gap_allow
        fudge := fudge
        approx_dur := approx_dur }
      new_buffers range_start_decode_time

/-- `SourceBufferRangeByPts::AppendRangeToEnd` (delegates to
`AppendBuffersToEnd` with no group start). -/
def AppendRangeToEnd (r other : SourceBufferRangeByPts)
    (transfer_current_position : Bool) : Option SourceBufferRangeByPts :=
  let r1 :=
    if transfer_current_position ∧ other.next_buffer_index ≥ 0 then
      { r with next_buffer_index :=
          other.next_buffer_index + (r.buffers.length : Int) }
    else r
  AppendBuffersToEnd r1 other.buffers none

/-- `SourceBufferRangeByPts::SplitRange`.  Returns `none` on a release-mode
`CHECK` abort; `some (r', none)` when there is no keyframe at or after the
timestamp (no split possible); `some (r', some split)` otherwise. -/
def SplitRange (r : SourceBufferRangeByPts) (timestamp : Int) :
    Option (SourceBufferRangeByPts × Option SourceBufferRangeByPts) :=
  if r.buffers = [] then none
  else
    match kfLowerBound r.keyframe_map timestamp with
    | none => some (r, none)
    | some e =>
        let keyframe_index : Nat := e.2 - r.keyframe_map_index_base
        let removed := r.buffers.drop keyframe_index
        let kept := r.buffers.take keyframe_index
        match removed.head? with
        | none => none
        | some rb =>
            let new_range_start : Option Int :=
              if GetStartTimestamp r < (r.buffers.head?.map Frame.dtsD).getD 0 ∧
                 timestamp < rb.dtsD then some timestamp
              else none
            let kept_map := (kfSplitAtLB r.keyframe_map timestamp).1
            match UpdateEndTimeUsingLastGOP kept kept_map r.keyframe_map_index_base with
            | none => none
            | some he =>
                let r1 :=
                  { r with
                    buffers := kept
                    keyframe_map := kept_map
                    size_in_bytes := r.size_in_bytes - sumSizes removed
                    highest_end := he }
                match mkSourceBufferRangeByPts r.gap_allow r.fudge r.approx_dur
                    removed new_range_start with
                | none => none
                | some split0 =>
                    if r.next_buffer_index ≥ (kept.length : Int) then
                      let split_next := r.next_buffer_index - (keyframe_index : Int)
                      if split_next < 0 ∨
                         split_next > (split0.buffers.length : Int) then none
                      else
                        some ({ r1 with next_buffer_index := -1 },
                              some { split0 with next_buffer_index := split_next })
                    else some (r1, some split0)

/-- `SourceBufferRangeByPts::DeleteGOPFromFront`: removes the first keyframe
from the index and every buffer before the next keyframe, fixes up the
index base, the next-buffer position, the range start and the cached end
time.  Returns the new range, the deleted buffers and the bytes deleted;
`none` is the `CHECK_GE(next_buffer_index_, 0)` abort. -/
def DeleteGOPFromFront (r : SourceBufferRangeByPts) :
    Option (SourceBufferRangeByPts × List Frame × Nat) :=
  match r.keyframe_map with
  | [] => none
  | _ :: mrest =>
      let end_index : Nat :=
        match mrest with
        | [] => r.buffers.length
        | e :: _ => e.2 - r.keyframe_map_index_base
      let deleted := r.buffers.take end_index
      let kept := r.buffers.drop end_index
      let bytes := sumSizes deleted
      if r.next_buffer_index > -1 ∧ r.next_buffer_index - (end_index : Int) < 0 then
        none
      else
        some
          ({ r with
              buffers := kept
              keyframe_map := mrest
              keyframe_map_index_base := r.keyframe_map_index_base + end_index
              next_buffer_index :=
                if r.next_buffer_index > -1 then
                  r.next_buffer_index - (end_index : Int)
                else r.next_buffer_index
              range_start := if 0 < end_index then none else r.range_start
              highest_end :=
                if 0 < end_index ∧ kept = [] then none else r.highest_end
              size_in_bytes := r.size_in_bytes - bytes },
           deleted, bytes)

/-- `SourceBufferRangeByPts::DeleteGOPFromBack`: removes the last keyframe
from the index, pops buffers from the back down to that keyframe's
position, and recomputes the cached end time from the new last GOP.
`none` covers the aborts (empty keyframe map, a goal size beyond the
buffer count — where the source loop would never terminate — and the
`CHECK` inside the end-time recomputation). -/
def DeleteGOPFromBack (r : SourceBufferRangeByPts) :
    Option (SourceBufferRangeByPts × List Frame × Nat) :=
  match r.keyframe_map.getLast? with
  | none => none
  | some back =>
      let goal_size : Nat := back.2 - r.keyframe_map_index_base
      if r.buffers.length < goal_size then none
      else
        let kept := r.buffers.take goal_size
        let deleted := r.buffers.drop goal_size
        let bytes := sumSizes deleted
        let m' := r.keyframe_map.dropLast
        match UpdateEndTimeUsingLastGOP kept m' r.keyframe_map_index_base with
        | none => none
        | some he =>
            some
              ({ r with
                  buffers := kept
                  keyframe_map := m'
                  size_in_bytes := r.size_in_bytes - bytes
                  highest_end := he },
               deleted, bytes)

/-- `SourceBufferRangeByPts::NextKeyframeTimestamp`, including the
front-gap special case.  (When `range_start_decode_time_` is unset its
sentinel is numerically minimal, so the `timestamp > range_start` guard is
vacuously true — the `none` arm below.) -/
def NextKeyframeTimestamp (r : SourceBufferRangeByPts) (timestamp : Int) :
    Option Int :=
  if timestamp < GetStartTimestamp r ∨ timestamp ≥ GetBufferedEndTimestamp r then
    none
  else
    match kfLowerBound r.keyframe_map timestamp with
    | none => none
    | some e =>
        if r.keyframe_map.head? = some e ∧
           (match r.range_start with
            | some s => decide (timestamp > s)
            | none => true) = true ∧
           timestamp < e.1 then
          some timestamp
        else some e.1

/-- `SourceBufferRangeByPts::KeyframeBeforeTimestamp`. -/
def KeyframeBeforeTimestamp (r : SourceBufferRangeByPts) (timestamp : Int) :
    Option Int :=
  if timestamp < GetStartTimestamp r ∨ timestamp ≥ GetBufferedEndTimestamp r then
    none
  else (GetFirstKeyframeAtOrBefore r.keyframe_map timestamp).map Prod.fst

/-- The scan loop of `GetBuffersInRange`: accumulates the overlapping
buffers; the `Bool` is false exactly on the early unsupported-duration
return. -/
def buffersInRangeLoop : List Frame → Int → Int → List Frame →
    List Frame × Bool
  | [], _, _, acc => (acc, true)
  | b :: t, s, e, acc =>
      if b.duration = none ∨ b.durD ≤ 0 then (acc, false)
      else if b.end_of_stream = true ∨ b.ptsD ≥ e then (acc, true)
      else if b.ptsD + b.durD ≤ s then buffersInRangeLoop t s e acc
      else buffersInRangeLoop t s e (acc ++ [b])

/-- `SourceBufferRangeByPts::GetBuffersInRange`: the accumulated output
queue and the success flag (`previous_size < buffers->size()` unless an
early return fired). -/
def GetBuffersInRange (r : SourceBufferRangeByPts) (start_ts end_ts : Int)
    (buffers : List Frame) : List Frame × Bool :=
  match KeyframeBeforeTimestamp r start_ts with
  | none => (buffers, false)
  | some first_timestamp =>
      let i0 := bufLowerBoundIdx r.buffers first_timestamp
      let lr := buffersInRangeLoop (r.buffers.drop i0) start_ts end_ts buffers
      if lr.2 = false then (lr.1, false)
      else (lr.1, decide (buffers.length < lr.1.length))

/-! ### Helper lemmas about the track-buffer map -/

theorem findTrack_prop (P : MseTrackBuffer → Prop) (l : List (Nat × MseTrackBuffer))
    (id : Nat) (tb : MseTrackBuffer) (h : FrameProcessor.FindTrack l id = some tb)
    (hall : ∀ kv ∈ l, P kv.2) : P tb := by
  induction l with
  | nil => simp [FrameProcessor.FindTrack] at h
  | cons kv t ih =>
      unfold FrameProcessor.FindTrack at h
      by_cases hk : kv.1 = id
      · simp [hk] at h
        exact h ▸ hall kv (by simp)
      · simp [hk] at h
        exact ih h fun kv' hm => hall kv' (by simp [hm])

theorem resetAllTracks_last_dts (l : List (Nat × MseTrackBuffer)) :
    ∀ kv ∈ resetAllTracks l, kv.2.last_decode_timestamp = none := by
  intro kv hm
  simp only [resetAllTracks, List.mem_map] at hm
  obtain ⟨kv0, _, rfl⟩ := hm
  rfl

theorem setAllRAP_last_dts (l : List (Nat × MseTrackBuffer))
    (h : ∀ kv ∈ l, kv.2.last_decode_timestamp = none) :
    ∀ kv ∈ SetAllTrackBuffersNeedRandomAccessPoint l,
      kv.2.last_decode_timestamp = none := by
  intro kv hm
  simp only [SetAllTrackBuffersNeedRandomAccessPoint, List.mem_map] at hm
  obtain ⟨kv0, hm0, rfl⟩ := hm
  exact h kv0 hm0

theorem applyPendingGroupStart_last_dts (p : FrameProcessor) (pv : Int)
    (h : ∀ kv ∈ p.tracks, kv.2.last_decode_timestamp = none) :
    ∀ kv ∈ (applyPendingGroupStart p pv).tracks,
      kv.2.last_decode_timestamp = none := by
  unfold applyPendingGroupStart
  cases p.group_start_timestamp with
  | none => exact h
  | some gs =>
      by_cases hs : p.sequence_mode
      · simpa [hs] using setAllRAP_last_dts p.tracks h
      · simpa [hs] using h

/-! ### No stage after discontinuity detection can restart the loop -/

theorem commitFrame_not_retry (p : FrameProcessor) (f : Frame) (a b c : Int) :
    (commitFrame p f a b c).isRetry = false := rfl

theorem signalAndCommit_not_retry (p : FrameProcessor) (f : Frame)
    (tb : MseTrackBuffer) (a b c : Int) :
    (signalAndCommit p f tb a b c).isRetry = false := by
  simp only [signalAndCommit]
  split
  · split
    · rfl
    · exact commitFrame_not_retry _ _ _ _ _
  · exact commitFrame_not_retry _ _ _ _ _

theorem windowAndCommit_not_retry (p : FrameProcessor) (f : Frame)
    (tb : MseTrackBuffer) (a b c d e g : Int) :
    (windowAndCommit p f tb a b c d e g).isRetry = false := by
  simp only [windowAndCommit]
  split
  · rfl
  · split
    · rfl
    · split
      · split
        · rfl
        · exact signalAndCommit_not_retry _ _ _ _ _ _
      · exact signalAndCommit_not_retry _ _ _ _ _ _

theorem trimAndCommit_not_retry (p : FrameProcessor) (f : Frame)
    (tb : MseTrackBuffer) (a b c d e : Int) :
    (trimAndCommit p f tb a b c d e).isRetry = false := by
  simp only [trimAndCommit]
  split
  · split
    · exact windowAndCommit_not_retry _ _ _ _ _ _ _ _ _
    · exact windowAndCommit_not_retry _ _ _ _ _ _ _ _ _
  · exact windowAndCommit_not_retry _ _ _ _ _ _ _ _ _

/-- After a discontinuity reset, every surviving track buffer has an unset
last decode timestamp, so the step-6 condition cannot hold again. -/
theorem loopBody_no_retry_of_unset (p : FrameProcessor) (f : Frame) (ws we : Int)
    (h : ∀ kv ∈ p.tracks, kv.2.last_decode_timestamp = none) :
    (processFrameLoopBody p f ws we).isRetry = false := by
  simp only [processFrameLoopBody]
  rcases hp : (forceAudioKeyframe f).pts with _ | pv <;>
    rcases hd : (forceAudioKeyframe f).dts with _ | dv <;>
    rcases hu : (forceAudioKeyframe f).duration with _ | du <;> try rfl
  dsimp only
  by_cases hneg : du < 0
  · rw [if_pos hneg]
    rfl
  · rw [if_neg hneg]
    unfold lookupAndDiscontinuity
    rcases hft : FrameProcessor.FindTrack (applyPendingGroupStart p pv).tracks
        (forceAudioKeyframe f).track_id with _ | tb <;> dsimp only
    · rfl
    · have hdts : tb.last_decode_timestamp = none :=
        findTrack_prop (fun q => q.last_decode_timestamp = none) _ _ _ hft
          (applyPendingGroupStart_last_dts p pv h)
      have hdc : discontinuityCond tb
          (applyOffset (applyPendingGroupStart p pv).timestamp_offset pv dv).2 = false := by
        unfold discontinuityCond
        rw [hdts]
      split
      · rfl
      · rw [hdc]
        simp only [Bool.false_eq_true, if_false]
        exact trimAndCommit_not_retry _ _ _ _ _ _ _ _

/-- The only way the loop restarts is the discontinuity branch, whose
`Reset()` unsets every track's last decode timestamp. -/
theorem loopBody_retry_resets (p : FrameProcessor) (f : Frame) (ws we : Int)
    (p1 : FrameProcessor) (f1 : Frame)
    (h : processFrameLoopBody p f ws we = .retry p1 f1) :
    ∀ kv ∈ p1.tracks, kv.2.last_decode_timestamp = none := by
  simp only [processFrameLoopBody] at h
  rcases hp : (forceAudioKeyframe f).pts with _ | pv <;>
    rcases hd : (forceAudioKeyframe f).dts with _ | dv <;>
    rcases hu : (forceAudioKeyframe f).duration with _ | du <;>
      rw [hp, hd, hu] at h <;> dsimp only at h
  case some.some.some =>
    by_cases hneg : du < 0
    · rw [if_pos hneg] at h
      exact LoopOutcome.noConfusion h
    · rw [if_neg hneg] at h
      unfold lookupAndDiscontinuity at h
      rcases hft : FrameProcessor.FindTrack (applyPendingGroupStart p pv).tracks
          (forceAudioKeyframe f).track_id with _ | tb <;> rw [hft] at h <;>
        dsimp only at h
      · exact LoopOutcome.noConfusion h
      · split at h
        · exact LoopOutcome.noConfusion h
        · split at h
          · simp only [LoopOutcome.retry.injEq] at h
            obtain ⟨h1, _⟩ := h
            subst h1
            have hq : ∀ q : FrameProcessor,
                ∀ kv ∈ q.Reset.tracks, kv.2.last_decode_timestamp = none := by
              intro q
              unfold FrameProcessor.Reset
              split <;> exact resetAllTracks_last_dts q.tracks
            exact hq _
          · have hnr := trimAndCommit_not_retry (applyPendingGroupStart p pv)
              (forceAudioKeyframe f) tb
              (applyOffset (applyPendingGroupStart p pv).timestamp_offset pv dv).1
              (applyOffset (applyPendingGroupStart p pv).timestamp_offset pv dv).2
              du ws we
            rw [h] at hnr
            simp [LoopOutcome.isRetry] at hnr
  all_goals exact LoopOutcome.noConfusion h

/-- C1: for every frame handled by `ProcessFrame`, the per-frame retry loop
terminates after at most one discontinuity-triggered re-entry: the loop
never restarts on both passes, because the reset performed by the
discontinuity branch unsets the last-decode-timestamp state on every track
buffer, which the step-6 discontinuity condition requires to be set. -/
theorem c1_retry_loop_terminates (p : FrameProcessor) (f : Frame) (ws we : Int) :
    retryTwice p f ws we = false := by
  unfold retryTwice
  rcases hlb : processFrameLoopBody p f ws we with _ | ⟨p1, f1⟩
  · rfl
  · exact loopBody_no_retry_of_unset p1 f1 ws we
      (loopBody_retry_resets p f ws we p1 f1 hlb)

theorem forceAudioKeyframe_pts (f : Frame) : (forceAudioKeyframe f).pts = f.pts := by
  unfold forceAudioKeyframe
  split <;> rfl

theorem forceAudioKeyframe_dts (f : Frame) : (forceAudioKeyframe f).dts = f.dts := by
  unfold forceAudioKeyframe
  split <;> rfl

theorem forceAudioKeyframe_duration (f : Frame) :
    (forceAudioKeyframe f).duration = f.duration := by
  unfold forceAudioKeyframe
  split <;> rfl

theorem forceAudioKeyframe_track_id (f : Frame) :
    (forceAudioKeyframe f).track_id = f.track_id := by
  unfold forceAudioKeyframe
  split <;> rfl

theorem forceAudioKeyframe_type (f : Frame) :
    (forceAudioKeyframe f).type = f.type := by
  unfold forceAudioKeyframe
  split <;> rfl

theorem setAllRAP_flag (l : List (Nat × MseTrackBuffer)) :
    ∀ id tb, FrameProcessor.FindTrack (SetAllTrackBuffersNeedRandomAccessPoint l) id =
      some tb → tb.needs_random_access_point = true := by
  intro id tb h
  exact findTrack_prop (fun q => q.needs_random_access_point = true) _ _ _ h
    (by
      intro kv hm
      simp only [SetAllTrackBuffersNeedRandomAccessPoint, List.mem_map] at hm
      obtain ⟨kv0, _, rfl⟩ := hm
      rfl)

/-- C2: when `ProcessFrame` handles a frame in "sequence" append mode with a
pending group-start timestamp, step 3 rewrites the timestamp offset to
(group start − frame PTS), sets group end to group start, sets the
needs-random-access-point flag on all track buffers, and unsets the
group-start timestamp — and only then is the updated offset applied to the
frame's PTS and DTS for the rest of the algorithm. -/
theorem c2_sequence_pending_group_start (p : FrameProcessor) (f : Frame)
    (ws we pv dv du gs : Int)
    (hseq : p.sequence_mode = true) (hgs : p.group_start_timestamp = some gs)
    (hpts : f.pts = some pv) (hdts : f.dts = some dv) (hdur : f.duration = some du)
    (hdu : 0 ≤ du) :
    applyPendingGroupStart p pv =
      { p with
        timestamp_offset := gs - pv
        group_end_timestamp := gs
        tracks := SetAllTrackBuffersNeedRandomAccessPoint p.tracks
        group_start_timestamp := none } ∧
    processFrameLoopBody p f ws we =
      lookupAndDiscontinuity (applyPendingGroupStart p pv) (forceAudioKeyframe f)
        (pv + (gs - pv)) (dv + (gs - pv)) du ws we ∧
    (∀ id tb,
      FrameProcessor.FindTrack (SetAllTrackBuffersNeedRandomAccessPoint p.tracks) id =
        some tb → tb.needs_random_access_point = true) := by
  have h1 : applyPendingGroupStart p pv =
      { p with
        timestamp_offset := gs - pv
        group_end_timestamp := gs
        tracks := SetAllTrackBuffersNeedRandomAccessPoint p.tracks
        group_start_timestamp := none } := by
    unfold applyPendingGroupStart
    rw [hgs, hseq]
    simp
  refine ⟨h1, ?_, setAllRAP_flag p.tracks⟩
  simp only [processFrameLoopBody]
  rw [forceAudioKeyframe_pts, forceAudioKeyframe_dts, forceAudioKeyframe_duration,
    hpts, hdts, hdur]
  dsimp only
  rw [if_neg (by omega : ¬ du < 0), h1]
  unfold applyOffset
  dsimp only
  by_cases h0 : gs - pv = 0
  · rw [if_pos h0]
    dsimp only
    have e1 : pv + (gs - pv) = pv := by omega
    have e2 : dv + (gs - pv) = dv := by omega
    rw [e1, e2]
  · rw [if_neg h0]

/-- Concrete frame constructor shared by the witnesses below. -/
def mkFrame (pts dts dur : Int) (kf : Bool) (tid : Nat) (ty : MediaType)
    (sz : Nat) : Frame :=
  { pts := some pts, dts := some dts, duration := some dur, is_key_frame := kf,
    track_id := tid, type := ty, data_size := sz, end_of_stream := false,
    discard_front := 0, discard_back := 0, has_preroll := false, config_id := 0 }

/-- A video sink that accepts appends and does no partial trimming. -/
def videoStream : ChunkDemuxerStream :=
  { type := .video, supportsPartialTrimming := false, appendOk := true,
    appended := [], group_starts := [] }

/-- An audio sink that accepts appends and does no partial trimming. -/
def audioStream : ChunkDemuxerStream :=
  { type := .audio, supportsPartialTrimming := false, appendOk := true,
    appended := [], group_starts := [] }

/-- A sequence-mode processor with a pending group start of 100 and one
video track. -/
def pW2 : FrameProcessor :=
  { sequence_mode := true, pending_notify_all_group_start := false,
    group_start_timestamp := some 100, group_end_timestamp := 0,
    timestamp_offset := 7, tracks := [(1, MseTrackBuffer.mk0 videoStream)],
    audio_preroll_buffer := none, sample_duration := 0, duration_updates := [] }

/-- A video keyframe at PTS and DTS 10 with duration 5 on track 1. -/
def fW2 : Frame := mkFrame 10 10 5 true 1 .video 4

theorem c2_witness :
    applyPendingGroupStart pW2 10 =
      { pW2 with
        timestamp_offset := 100 - 10
        group_end_timestamp := 100
        tracks := SetAllTrackBuffersNeedRandomAccessPoint pW2.tracks
        group_start_timestamp := none } ∧
    processFrameLoopBody pW2 fW2 0 1000 =
      lookupAndDiscontinuity (applyPendingGroupStart pW2 10) (forceAudioKeyframe fW2)
        (10 + (100 - 10)) (10 + (100 - 10)) 5 0 1000 ∧
    (∀ id tb,
      FrameProcessor.FindTrack (SetAllTrackBuffersNeedRandomAccessPoint pW2.tracks) id =
        some tb → tb.needs_random_access_point = true) :=
  c2_sequence_pending_group_start pW2 fW2 0 1000 10 10 5 100 rfl rfl rfl rfl rfl
    (by omega)

/-- An in-window frame passes through the partial-trimming helper with its
PTS, DTS and duration unchanged (only a preroll attachment can happen). -/
theorem handlePartial_in_window (p : FrameProcessor) (ws we : Int) (f : Frame)
    (pv dv du : Int)
    (hp : f.pts = some pv) (hd : f.dts = some dv) (hu : f.duration = some du)
    (h1 : ws ≤ pv) (h2 : pv + du ≤ we) (_hdu : 0 ≤ du) :
    (HandlePartialAppendWindowTrimming p ws we f).2.1.pts = some pv ∧
    (HandlePartialAppendWindowTrimming p ws we f).2.1.dts = some dv ∧
    (HandlePartialAppendWindowTrimming p ws we f).2.1.duration = some du := by
  have hpd : f.ptsD = pv := by simp [Frame.ptsD, hp]
  have hud : f.durD = du := by simp [Frame.durD, hu]
  have hf1p : ({ f with has_preroll := true } : Frame).ptsD = pv := by
    simp [Frame.ptsD, hp]
  simp only [HandlePartialAppendWindowTrimming]
  rw [if_neg (show ¬(f.ptsD < ws ∧ f.ptsD + f.durD ≤ ws) by rw [hpd, hud]; omega)]
  by_cases hwe : f.ptsD ≥ we
  · rw [if_pos hwe]
    exact ⟨hp, hd, hu⟩
  · rw [if_neg hwe]
    rcases hpre : p.audio_preroll_buffer with _ | pre
    · dsimp only
      rw [if_neg (show ¬ f.ptsD < ws by rw [hpd]; omega),
          if_neg (show ¬ f.ptsD + f.durD > we by rw [hpd, hud]; omega)]
      exact ⟨hp, hd, hu⟩
    · dsimp only
      by_cases hdelta : |pre.ptsD + pre.durD - f.ptsD| < p.sample_duration
      · rw [if_pos hdelta]
        dsimp only
        rw [if_neg (show ¬ ({ f with has_preroll := true } : Frame).ptsD < ws by
              rw [hf1p]; omega),
            if_neg (show ¬ f.ptsD + f.durD > we by rw [hpd, hud]; omega)]
        exact ⟨hp, hd, hu⟩
      · rw [if_neg hdelta]
        dsimp only
        rw [if_neg (show ¬ f.ptsD < ws by rw [hpd]; omega),
            if_neg (show ¬ f.ptsD + f.durD > we by rw [hpd, hud]; omega)]
        exact ⟨hp, hd, hu⟩

/-- For an in-window frame with a negative decode timestamp, steps 8-10
reach the negative-DTS parse failure. -/
theorem windowAndCommit_neg_dts (p : FrameProcessor) (f : Frame)
    (tb : MseTrackBuffer) (pts dts du fe ws we : Int)
    (h1 : ws ≤ pts) (h2 : fe ≤ we) (hneg : dts < 0) :
    windowAndCommit p f tb pts dts du fe ws we = .done p f false := by
  simp only [windowAndCommit]
  rw [if_neg (by omega), if_pos hneg]

/-- C9: a frame that survives discontinuity handling and append-window
filtering but whose decode timestamp is negative after the timestamp offset
was applied makes `ProcessFrame` return failure, aborting the whole batch,
even though the frame is inside the append window and otherwise
well-formed. -/
theorem c9_negative_dts_fails (p : FrameProcessor) (f : Frame)
    (ws we pv dv du : Int) (tb : MseTrackBuffer)
    (hgs : p.group_start_timestamp = none)
    (hpts : f.pts = some pv) (hdts : f.dts = some dv) (hdur : f.duration = some du)
    (hdu : 0 ≤ du)
    (htrack : FrameProcessor.FindTrack p.tracks f.track_id = some tb)
    (htype : f.type = tb.stream.type)
    (hdisc : discontinuityCond tb (dv + p.timestamp_offset) = false)
    (hin1 : ws ≤ pv + p.timestamp_offset)
    (hin2 : pv + p.timestamp_offset + du ≤ we)
    (hneg : dv + p.timestamp_offset < 0) :
    (p.ProcessFrame f ws we).2.2 = false := by
  have hap : applyPendingGroupStart p pv = p := by
    unfold applyPendingGroupStart
    rw [hgs]
  suffices hs : ∃ q g, processFrameLoopBody p f ws we = .done q g false by
    obtain ⟨q, g, hq⟩ := hs
    unfold FrameProcessor.ProcessFrame
    rw [hq]
  simp only [processFrameLoopBody]
  rw [forceAudioKeyframe_pts, forceAudioKeyframe_dts, forceAudioKeyframe_duration,
    hpts, hdts, hdur]
  dsimp only
  rw [if_neg (by omega : ¬ du < 0), hap]
  unfold lookupAndDiscontinuity
  rw [forceAudioKeyframe_track_id, htrack]
  dsimp only
  rw [if_neg (by rw [forceAudioKeyframe_type, htype]; simp)]
  unfold applyOffset
  by_cases h0 : p.timestamp_offset = 0 <;>
    [rw [if_pos h0]; rw [if_neg h0]] <;> dsimp only
  · have hdisc0 : discontinuityCond tb dv = false := by
      rw [show dv = dv + p.timestamp_offset by omega]
      exact hdisc
    rw [hdisc0]
    simp only [Bool.false_eq_true, if_false]
    simp only [trimAndCommit]
    split
    · rename_i hsup
      have hw := handlePartial_in_window p ws we
        { forceAudioKeyframe f with pts := some pv, dts := some dv } pv dv du rfl rfl
        (by rw [show ({ forceAudioKeyframe f with pts := some pv, dts := some dv } : Frame).duration = (forceAudioKeyframe f).duration from rfl, forceAudioKeyframe_duration, hdur])
        (by omega) (by omega) hdu
      obtain ⟨hw1, hw2, hw3⟩ := hw
      have hwp : (HandlePartialAppendWindowTrimming p ws we
          { forceAudioKeyframe f with pts := some pv, dts := some dv }).2.1.ptsD = pv := by
        simp [Frame.ptsD, hw1]
      have hwd : (HandlePartialAppendWindowTrimming p ws we
          { forceAudioKeyframe f with pts := some pv, dts := some dv }).2.1.dtsD = dv := by
        simp [Frame.dtsD, hw2]
      have hwu : (HandlePartialAppendWindowTrimming p ws we
          { forceAudioKeyframe f with pts := some pv, dts := some dv }).2.1.durD = du := by
        simp [Frame.durD, hw3]
      split
      · rw [hwp, hwd, hwu]
        refine ⟨_, _, windowAndCommit_neg_dts _ _ _ _ _ _ _ _ _ (by omega) (by omega)
          (by omega)⟩
      · refine ⟨_, _, windowAndCommit_neg_dts _ _ _ _ _ _ _ _ _ (by omega) (by omega)
          (by omega)⟩
    · refine ⟨_, _, windowAndCommit_neg_dts _ _ _ _ _ _ _ _ _ (by omega) (by omega)
        (by omega)⟩
  · rw [hdisc]
    simp only [Bool.false_eq_true, if_false]
    simp only [trimAndCommit]
    split
    · rename_i hsup
      have hw := handlePartial_in_window p ws we
        { forceAudioKeyframe f with
            pts := some (pv + p.timestamp_offset), dts := some (dv + p.timestamp_offset) }
        (pv + p.timestamp_offset) (dv + p.timestamp_offset) du rfl rfl
        (by rw [show ({ forceAudioKeyframe f with
              pts := some (pv + p.timestamp_offset),
              dts := some (dv + p.timestamp_offset) } : Frame).duration =
            (forceAudioKeyframe f).duration from rfl, forceAudioKeyframe_duration, hdur])
        (by omega) (by omega) hdu
      obtain ⟨hw1, hw2, hw3⟩ := hw
      have hwp : (HandlePartialAppendWindowTrimming p ws we
          { forceAudioKeyframe f with
              pts := some (pv + p.timestamp_offset),
              dts := some (dv + p.timestamp_offset) }).2.1.ptsD =
          pv + p.timestamp_offset := by
        simp [Frame.ptsD, hw1]
      have hwd : (HandlePartialAppendWindowTrimming p ws we
          { forceAudioKeyframe f with
              pts := some (pv + p.timestamp_offset),
              dts := some (dv + p.timestamp_offset) }).2.1.dtsD =
          dv + p.timestamp_offset := by
        simp [Frame.dtsD, hw2]
      have hwu : (HandlePartialAppendWindowTrimming p ws we
          { forceAudioKeyframe f with
              pts := some (pv + p.timestamp_offset),
              dts := some (dv + p.timestamp_offset) }).2.1.durD = du := by
        simp [Frame.durD, hw3]
      split
      · rw [hwp, hwd, hwu]
        refine ⟨_, _, windowAndCommit_neg_dts _ _ _ _ _ _ _ _ _ (by omega) (by omega)
          (by omega)⟩
      · refine ⟨_, _, windowAndCommit_neg_dts _ _ _ _ _ _ _ _ _ (by omega) (by omega)
          (by omega)⟩
    · refine ⟨_, _, windowAndCommit_neg_dts _ _ _ _ _ _ _ _ _ (by omega) (by omega)
        (by omega)⟩

/-- A segments-mode processor with one video track whose last decode
timestamp is unset. -/
def pW9 : FrameProcessor :=
  { sequence_mode := false, pending_notify_all_group_start := false,
    group_start_timestamp := none, group_end_timestamp := 0,
    timestamp_offset := 0, tracks := [(1, MseTrackBuffer.mk0 videoStream)],
    audio_preroll_buffer := none, sample_duration := 0, duration_updates := [] }

/-- A video keyframe with PTS 5 inside the window but negative DTS -1. -/
def fW9 : Frame := mkFrame 5 (-1) 10 true 1 .video 4

theorem c9_witness : (pW9.ProcessFrame fW9 0 100).2.2 = false :=
  c9_negative_dts_fails pW9 fW9 0 100 5 (-1) 10 (MseTrackBuffer.mk0 videoStream)
    rfl rfl rfl rfl (by decide) rfl rfl rfl (by decide) (by decide) (by decide)

/-! ### C3 infrastructure: the registered tracks and their types are fixed
during a batch -/

/-- The track-id → registered-stream-type signature of a track-buffer map. -/
def trackTypes (l : List (Nat × MseTrackBuffer)) : List (Nat × MediaType) :=
  l.map fun kv => (kv.1, kv.2.stream.type)

/-- Lookup in a track signature. -/
def lookupType : List (Nat × MediaType) → Nat → Option MediaType
  | [], _ => none
  | kv :: t, id => if kv.1 = id then some kv.2 else lookupType t id

/-- The per-frame conditions the spec lists as fatal to the whole batch:
unset PTS, unset DTS, unset or negative duration, unknown track id, or a
media type that does not match the track's registered type. -/
def batchFatalFrame (sig : List (Nat × MediaType)) (f : Frame) : Bool :=
  f.pts.isNone || f.dts.isNone ||
  (match f.duration with
   | none => true
   | some d => decide (d < 0)) ||
  (match lookupType sig f.track_id with
   | none => true
   | some t => decide (f.type ≠ t))

theorem lookupType_trackTypes (l : List (Nat × MseTrackBuffer)) (id : Nat) :
    lookupType (trackTypes l) id =
      (FrameProcessor.FindTrack l id).map fun tb => tb.stream.type := by
  induction l with
  | nil => rfl
  | cons kv t ih =>
      simp only [trackTypes, List.map_cons] at *
      unfold lookupType FrameProcessor.FindTrack
      by_cases hk : kv.1 = id
      · simp [hk]
      · simpa [hk] using ih

theorem trackTypes_map (l : List (Nat × MseTrackBuffer))
    (F : (Nat × MseTrackBuffer) → (Nat × MseTrackBuffer))
    (hF : ∀ kv, (F kv).1 = kv.1 ∧ (F kv).2.stream.type = kv.2.stream.type) :
    trackTypes (l.map F) = trackTypes l := by
  induction l with
  | nil => rfl
  | cons kv t ih =>
      simp only [trackTypes, List.map_cons, List.cons.injEq] at *
      exact ⟨Prod.ext (hF kv).1 (hF kv).2, ih⟩

theorem trackTypes_updateTrack (l : List (Nat × MseTrackBuffer)) (id : Nat)
    (g : MseTrackBuffer → MseTrackBuffer)
    (hg : ∀ tb, (g tb).stream.type = tb.stream.type) :
    trackTypes (updateTrack l id g) = trackTypes l := by
  unfold updateTrack
  refine trackTypes_map l _ fun kv => ?_
  by_cases hk : kv.1 = id <;> simp [hk, hg]

theorem trackTypes_setAllRAP (l : List (Nat × MseTrackBuffer)) :
    trackTypes (SetAllTrackBuffersNeedRandomAccessPoint l) = trackTypes l :=
  trackTypes_map l _ fun _ => ⟨rfl, rfl⟩

theorem trackTypes_resetAll (l : List (Nat × MseTrackBuffer)) :
    trackTypes (resetAllTracks l) = trackTypes l :=
  trackTypes_map l _ fun _ => ⟨rfl, rfl⟩

theorem flush_stream_type (tb : MseTrackBuffer) :
    tb.FlushProcessedFrames.1.stream.type = tb.stream.type := by
  unfold MseTrackBuffer.FlushProcessedFrames
  split
  · rfl
  · unfold ChunkDemuxerStream.Append
    split <;> rfl

theorem trackTypes_flushTracks (l : List (Nat × MseTrackBuffer)) :
    trackTypes (flushTracks l).1 = trackTypes l := by
  unfold flushTracks
  exact trackTypes_map l _ fun kv => ⟨rfl, flush_stream_type kv.2⟩

theorem trackTypes_applyPendingGroupStart (p : FrameProcessor) (pv : Int) :
    trackTypes (applyPendingGroupStart p pv).tracks = trackTypes p.tracks := by
  unfold applyPendingGroupStart
  rcases p.group_start_timestamp with _ | gs
  · rfl
  · dsimp only
    split
    · exact trackTypes_setAllRAP p.tracks
    · rfl

theorem trackTypes_reset (p : FrameProcessor) :
    trackTypes p.Reset.tracks = trackTypes p.tracks := by
  unfold FrameProcessor.Reset
  split <;> exact trackTypes_resetAll p.tracks

theorem handlePartial_tracks (p : FrameProcessor) (ws we : Int) (f : Frame) :
    (HandlePartialAppendWindowTrimming p ws we f).1.tracks = p.tracks := by
  simp only [HandlePartialAppendWindowTrimming]
  by_cases h1 : f.ptsD < ws ∧ f.ptsD + f.durD ≤ ws
  · rw [if_pos h1]
  · rw [if_neg h1]
    by_cases h2 : f.ptsD ≥ we
    · rw [if_pos h2]
    · rw [if_neg h2]
      rcases p.audio_preroll_buffer with _ | pre
      · rfl
      · dsimp only
        by_cases h3 : |pre.ptsD + pre.durD - f.ptsD| < p.sample_duration
        · rw [if_pos h3]
        · rw [if_neg h3]

theorem sethigh_stream_type (tb : MseTrackBuffer) (t : Int) :
    (tb.SetHighestPresentationTimestampIfIncreased t).stream.type = tb.stream.type := by
  unfold MseTrackBuffer.SetHighestPresentationTimestampIfIncreased
  rcases tb.highest_presentation_timestamp with _ | h
  · rfl
  · dsimp only
    split <;> rfl

/-- The state carried by a loop outcome. -/
def LoopOutcome.state : LoopOutcome → FrameProcessor
  | .done q _ _ => q
  | .retry q _ => q

theorem commitFrame_state_trackTypes (p : FrameProcessor) (f : Frame) (a b c : Int) :
    trackTypes (commitFrame p f a b c).state.tracks = trackTypes p.tracks := by
  unfold commitFrame
  dsimp only [LoopOutcome.state]
  apply trackTypes_updateTrack
  intro tb
  simp [commitTransform, sethigh_stream_type, MseTrackBuffer.EnqueueProcessedFrame]

theorem flushState_trackTypes (p : FrameProcessor) :
    trackTypes p.FlushProcessedFrames.1.tracks = trackTypes p.tracks := by
  simp only [FrameProcessor.FlushProcessedFrames]
  exact trackTypes_flushTracks p.tracks

theorem signalAndCommit_state_trackTypes (p : FrameProcessor) (f : Frame)
    (tb : MseTrackBuffer) (a b c : Int) :
    trackTypes (signalAndCommit p f tb a b c).state.tracks = trackTypes p.tracks := by
  simp only [signalAndCommit]
  split
  · split
    · dsimp only [LoopOutcome.state]
      exact flushState_trackTypes p
    · split
      · refine (commitFrame_state_trackTypes _ _ _ _ _).trans ?_
        dsimp only
        refine Eq.trans ?_ (flushState_trackTypes p)
        unfold FrameProcessor.NotifyStartOfCodedFrameGroup
        dsimp only
        exact trackTypes_map _ _ fun _ => ⟨rfl, rfl⟩
      · refine (commitFrame_state_trackTypes _ _ _ _ _).trans ?_
        dsimp only
        refine Eq.trans ?_ (flushState_trackTypes p)
        apply trackTypes_updateTrack
        intro tb2
        rfl
  · exact commitFrame_state_trackTypes _ _ _ _ _

theorem windowAndCommit_state_trackTypes (p : FrameProcessor) (f : Frame)
    (tb : MseTrackBuffer) (a b c d e w : Int) :
    trackTypes (windowAndCommit p f tb a b c d e w).state.tracks =
      trackTypes p.tracks := by
  simp only [windowAndCommit]
  split
  · dsimp only [LoopOutcome.state]
    apply trackTypes_updateTrack
    intro tb2
    rfl
  · split
    · rfl
    · split
      · split
        · rfl
        · refine (signalAndCommit_state_trackTypes _ _ _ _ _ _).trans ?_
          dsimp only
          apply trackTypes_updateTrack
          intro tb2
          rfl
      · exact signalAndCommit_state_trackTypes _ _ _ _ _ _

theorem trimAndCommit_state_trackTypes (p : FrameProcessor) (f : Frame)
    (tb : MseTrackBuffer) (a b c d e : Int) :
    trackTypes (trimAndCommit p f tb a b c d e).state.tracks =
      trackTypes p.tracks := by
  simp only [trimAndCommit]
  split
  · split
    · refine (windowAndCommit_state_trackTypes _ _ _ _ _ _ _ _ _).trans ?_
      rw [handlePartial_tracks]
    · refine (windowAndCommit_state_trackTypes _ _ _ _ _ _ _ _ _).trans ?_
      rw [handlePartial_tracks]
  · exact windowAndCommit_state_trackTypes _ _ _ _ _ _ _ _ _

theorem loopBody_trackTypes (p : FrameProcessor) (f : Frame) (ws we : Int) :
    trackTypes (processFrameLoopBody p f ws we).state.tracks =
      trackTypes p.tracks := by
  simp only [processFrameLoopBody]
  rcases hp : (forceAudioKeyframe f).pts with _ | pv <;>
    rcases hd : (forceAudioKeyframe f).dts with _ | dv <;>
    rcases hu : (forceAudioKeyframe f).duration with _ | du <;> try rfl
  dsimp only
  split
  · rfl
  · unfold lookupAndDiscontinuity
    rcases hft : FrameProcessor.FindTrack (applyPendingGroupStart p pv).tracks
        (forceAudioKeyframe f).track_id with _ | tb <;> dsimp only
    · exact trackTypes_applyPendingGroupStart p pv
    · split
      · exact trackTypes_applyPendingGroupStart p pv
      · split
        · dsimp only [LoopOutcome.state]
          rw [trackTypes_reset]
          split <;> exact trackTypes_applyPendingGroupStart p pv
        · exact (trimAndCommit_state_trackTypes _ _ _ _ _ _ _ _).trans
            (trackTypes_applyPendingGroupStart p pv)

theorem processFrame_trackTypes (p : FrameProcessor) (f : Frame) (ws we : Int) :
    trackTypes (p.ProcessFrame f ws we).1.tracks = trackTypes p.tracks := by
  unfold FrameProcessor.ProcessFrame
  have h1 := loopBody_trackTypes p f ws we
  rcases hb : processFrameLoopBody p f ws we with ⟨q, g, r⟩ | ⟨q, g⟩ <;>
    rw [hb] at h1 <;> dsimp only [LoopOutcome.state] at h1 <;> dsimp only
  · exact h1
  · have h2 := loopBody_trackTypes q g ws we
    rcases hb2 : processFrameLoopBody q g ws we with ⟨q2, g2, r2⟩ | ⟨q2, g2⟩ <;>
      rw [hb2] at h2 <;> dsimp only [LoopOutcome.state] at h2 <;> dsimp only <;>
        exact h2.trans h1

theorem processFrame_done_false (p : FrameProcessor) (f : Frame) (ws we : Int)
    (h : ∃ q g, processFrameLoopBody p f ws we = .done q g false) :
    (p.ProcessFrame f ws we).2.2 = false := by
  obtain ⟨q, g, h⟩ := h
  unfold FrameProcessor.ProcessFrame
  rw [h]

/-- A batch-fatal frame makes `ProcessFrame` fail from any processor state
with the same registered tracks: the timestamp and duration validations
precede everything else, and the track lookup and type check precede the
discontinuity handling. -/
theorem fatalFrame_fails (p : FrameProcessor) (f : Frame) (ws we : Int)
    (h : batchFatalFrame (trackTypes p.tracks) f = true) :
    (p.ProcessFrame f ws we).2.2 = false := by
  rcases hp : f.pts with _ | pv
  · refine processFrame_done_false p f ws we ⟨p, forceAudioKeyframe f, ?_⟩
    simp only [processFrameLoopBody]
    rw [forceAudioKeyframe_pts, hp]
  rcases hd : f.dts with _ | dv
  · refine processFrame_done_false p f ws we ⟨p, forceAudioKeyframe f, ?_⟩
    simp only [processFrameLoopBody]
    rw [forceAudioKeyframe_pts, forceAudioKeyframe_dts, hp, hd]
  rcases hu : f.duration with _ | du
  · refine processFrame_done_false p f ws we ⟨p, forceAudioKeyframe f, ?_⟩
    simp only [processFrameLoopBody]
    rw [forceAudioKeyframe_pts, forceAudioKeyframe_dts, forceAudioKeyframe_duration,
      hp, hd, hu]
  simp only [batchFatalFrame, hp, hd, hu, Option.isNone_none, Option.isNone_some,
    Bool.false_or] at h
  by_cases hneg : du < 0
  · refine processFrame_done_false p f ws we ⟨p, forceAudioKeyframe f, ?_⟩
    simp only [processFrameLoopBody]
    rw [forceAudioKeyframe_pts, forceAudioKeyframe_dts, forceAudioKeyframe_duration,
      hp, hd, hu]
    dsimp only
    rw [if_pos hneg]
  · rw [Bool.or_eq_true, decide_eq_true_eq] at h
    rcases h with h | h
    · exact absurd h hneg
    · have hmap := lookupType_trackTypes (applyPendingGroupStart p pv).tracks f.track_id
      rw [trackTypes_applyPendingGroupStart] at hmap
      rcases hlt : lookupType (trackTypes p.tracks) f.track_id with _ | ty <;>
        rw [hlt] at h hmap
      · have hft : FrameProcessor.FindTrack (applyPendingGroupStart p pv).tracks
            f.track_id = none := by
          rcases hft2 : FrameProcessor.FindTrack (applyPendingGroupStart p pv).tracks
              f.track_id with _ | tb
          · rfl
          · rw [hft2] at hmap
            simp at hmap
        refine processFrame_done_false p f ws we
          ⟨applyPendingGroupStart p pv, forceAudioKeyframe f, ?_⟩
        simp only [processFrameLoopBody]
        rw [forceAudioKeyframe_pts, forceAudioKeyframe_dts, forceAudioKeyframe_duration,
          hp, hd, hu]
        dsimp only
        rw [if_neg hneg]
        unfold lookupAndDiscontinuity
        rw [forceAudioKeyframe_track_id, hft]
      · rcases hft2 : FrameProcessor.FindTrack (applyPendingGroupStart p pv).tracks
            f.track_id with _ | tb <;> rw [hft2] at hmap
        · simp at hmap
        · rw [Option.map_some'] at hmap
          have hty : tb.stream.type = ty := (Option.some.inj hmap).symm
          rw [decide_eq_true_eq] at h
          refine processFrame_done_false p f ws we
            ⟨applyPendingGroupStart p pv, forceAudioKeyframe f, ?_⟩
          simp only [processFrameLoopBody]
          rw [forceAudioKeyframe_pts, forceAudioKeyframe_dts, forceAudioKeyframe_duration,
            hp, hd, hu]
          dsimp only
          rw [if_neg hneg]
          unfold lookupAndDiscontinuity
          rw [forceAudioKeyframe_track_id, hft2]
          dsimp only
          rw [if_pos (by rw [forceAudioKeyframe_type, hty]; exact h)]

/-- The outer loop stops at the first batch-fatal frame and fails; nothing
after the first fatal frame changes the outcome. -/
theorem processLoop_fatal (ws we : Int) (f : Frame) (rest : List Frame) :
    ∀ (pre : List Frame) (p : FrameProcessor),
      batchFatalFrame (trackTypes p.tracks) f = true →
      processLoop p (pre ++ f :: rest) ws we = processLoop p (pre ++ [f]) ws we ∧
      (processLoop p (pre ++ f :: rest) ws we).2 = false := by
  intro pre
  induction pre with
  | nil =>
      intro p hf
      have hff := fatalFrame_fails p f ws we hf
      constructor
      · simp only [List.nil_append, processLoop]
        rw [if_neg (by rw [hff]; simp), if_neg (by rw [hff]; simp)]
      · simp only [List.nil_append, processLoop]
        rw [if_neg (by rw [hff]; simp)]
  | cons g t ih =>
      intro p hf
      simp only [List.cons_append, processLoop]
      by_cases hr : (p.ProcessFrame g ws we).2.2 = true
      · rw [if_pos hr, if_pos hr]
        exact ih (p.ProcessFrame g ws we).1
          (by rw [processFrame_trackTypes]; exact hf)
      · rw [if_neg hr, if_neg hr]
        exact ⟨rfl, rfl⟩

/-- C3: `ProcessFrames` returns failure for the whole batch whenever some
frame in it has an unset PTS, unset DTS, unset or negative duration, an
unknown track id, or a type mismatching its track's registered type; the
loop aborts at the first failing frame, so no later frame is processed (the
batch behaves the same as if it had ended at the failing frame), and a
failed flush of staged frames at the end of the batch also fails the
batch. -/
theorem c3_batch_fatal_aborts (p : FrameProcessor) (ws we : Int)
    (pre rest : List Frame) (f : Frame)
    (hf : batchFatalFrame (trackTypes p.tracks) f = true) :
    p.ProcessFrames (pre ++ f :: rest) ws we = p.ProcessFrames (pre ++ [f]) ws we ∧
    (p.ProcessFrames (pre ++ f :: rest) ws we).2 = false ∧
    (∀ (q : FrameProcessor) (frames : List Frame),
      (processLoop q frames ws we).2 = true →
      (processLoop q frames ws we).1.FlushProcessedFrames.2 = false →
      (q.ProcessFrames frames ws we).2 = false) := by
  obtain ⟨he, hfalse⟩ := processLoop_fatal ws we f rest pre p hf
  refine ⟨?_, ?_, ?_⟩
  · simp only [FrameProcessor.ProcessFrames]
    rw [he]
  · simp only [FrameProcessor.ProcessFrames]
    rw [if_pos hfalse]
  · intro q frames h1 h2
    simp only [FrameProcessor.ProcessFrames]
    rw [if_neg (by rw [h1]; simp), if_pos h2]

/-- A segments-mode processor with one registered video track (id 1). -/
def pW3 : FrameProcessor :=
  { sequence_mode := false, pending_notify_all_group_start := false,
    group_start_timestamp := none, group_end_timestamp := 0,
    timestamp_offset := 0, tracks := [(1, MseTrackBuffer.mk0 videoStream)],
    audio_preroll_buffer := none, sample_duration := 0, duration_updates := [] }

/-- A well-formed video keyframe on the registered track. -/
def fW3good : Frame := mkFrame 0 0 10 true 1 .video 2

/-- A frame carrying the unknown track id 9. -/
def fW3bad : Frame := mkFrame 10 10 10 true 9 .video 2

/-- A well-formed frame after the failing one. -/
def fW3tail : Frame := mkFrame 20 20 10 true 1 .video 2

theorem c3_witness :
    pW3.ProcessFrames ([fW3good] ++ fW3bad :: [fW3tail]) 0 1000 =
      pW3.ProcessFrames ([fW3good] ++ [fW3bad]) 0 1000 ∧
    (pW3.ProcessFrames ([fW3good] ++ fW3bad :: [fW3tail]) 0 1000).2 = false ∧
    (∀ (q : FrameProcessor) (frames : List Frame),
      (processLoop q frames 0 1000).2 = true →
      (processLoop q frames 0 1000).1.FlushProcessedFrames.2 = false →
      (q.ProcessFrames frames 0 1000).2 = false) :=
  c3_batch_fatal_aborts pW3 0 1000 [fW3good] [fW3tail] fW3bad (by decide)

/-! ### C5 infrastructure -/

theorem applyOffset_fst (off pv dv : Int) : (applyOffset off pv dv).1 = pv + off := by
  unfold applyOffset
  split
  · rename_i h
    simp [h]
  · rfl

theorem applyOffset_snd (off pv dv : Int) : (applyOffset off pv dv).2 = dv + off := by
  unfold applyOffset
  split
  · rename_i h
    simp [h]
  · rfl

theorem findTrack_map (l : List (Nat × MseTrackBuffer)) (id : Nat)
    (gf : MseTrackBuffer → MseTrackBuffer) :
    FrameProcessor.FindTrack (l.map fun kv => (kv.1, gf kv.2)) id =
      (FrameProcessor.FindTrack l id).map gf := by
  induction l with
  | nil => rfl
  | cons kv t ih =>
      simp only [List.map_cons]
      unfold FrameProcessor.FindTrack
      dsimp only
      by_cases hk : kv.1 = id
      · simp [hk]
      · simp only [hk, if_false]
        exact ih

theorem findTrack_updateTrack (l : List (Nat × MseTrackBuffer)) (id : Nat)
    (g : MseTrackBuffer → MseTrackBuffer) :
    FrameProcessor.FindTrack (updateTrack l id g) id =
      (FrameProcessor.FindTrack l id).map g := by
  induction l with
  | nil => rfl
  | cons kv t ih =>
      unfold updateTrack
      simp only [List.map_cons]
      by_cases hk : kv.1 = id
      · rw [if_pos hk]
        unfold FrameProcessor.FindTrack
        rw [if_pos hk, if_pos hk]
        rfl
      · rw [if_neg hk]
        unfold FrameProcessor.FindTrack
        rw [if_neg hk, if_neg hk]
        exact ih

theorem flushfn_needs (tb : MseTrackBuffer) :
    tb.FlushProcessedFrames.1.needs_random_access_point =
      tb.needs_random_access_point := by
  simp only [MseTrackBuffer.FlushProcessedFrames]
  split <;> rfl

theorem flushfn_processed (tb : MseTrackBuffer) :
    tb.FlushProcessedFrames.1.processed_frames = [] := by
  simp only [MseTrackBuffer.FlushProcessedFrames]
  split
  · rename_i h
    exact h
  · rfl

theorem notify_needs (tb : MseTrackBuffer) (t : Int) :
    (tb.NotifyStartOfCodedFrameGroup t).needs_random_access_point =
      tb.needs_random_access_point := rfl

theorem notify_processed (tb : MseTrackBuffer) (t : Int) :
    (tb.NotifyStartOfCodedFrameGroup t).processed_frames = tb.processed_frames := rfl

theorem sethigh_needs (tb : MseTrackBuffer) (t : Int) :
    (tb.SetHighestPresentationTimestampIfIncreased t).needs_random_access_point =
      tb.needs_random_access_point := by
  unfold MseTrackBuffer.SetHighestPresentationTimestampIfIncreased
  rcases tb.highest_presentation_timestamp with _ | h
  · rfl
  · dsimp only
    split <;> rfl

theorem sethigh_processed (tb : MseTrackBuffer) (t : Int) :
    (tb.SetHighestPresentationTimestampIfIncreased t).processed_frames =
      tb.processed_frames := by
  unfold MseTrackBuffer.SetHighestPresentationTimestampIfIncreased
  rcases tb.highest_presentation_timestamp with _ | h
  · rfl
  · dsimp only
    split <;> rfl

theorem commitTransform_needs (f : Frame) (a b c : Int) (tb : MseTrackBuffer) :
    (commitTransform f a b c tb).needs_random_access_point =
      tb.needs_random_access_point := by
  simp only [commitTransform]
  rw [sethigh_needs]
  rfl

theorem commitTransform_processed (f : Frame) (a b c : Int) (tb : MseTrackBuffer) :
    (commitTransform f a b c tb).processed_frames = tb.processed_frames ++ [f] := by
  simp only [commitTransform]
  rw [sethigh_processed]
  rfl

theorem flush_ok_of_appendOk (tb : MseTrackBuffer)
    (h : tb.stream.appendOk = true) : tb.FlushProcessedFrames.2 = true := by
  simp only [MseTrackBuffer.FlushProcessedFrames]
  split
  · rfl
  · simp only [ChunkDemuxerStream.Append, h, if_true]

theorem flushTracks_ok (l : List (Nat × MseTrackBuffer))
    (hall : ∀ kv ∈ l, kv.2.stream.appendOk = true) : (flushTracks l).2 = true := by
  unfold flushTracks
  dsimp only
  rw [List.all_eq_true]
  intro kv hm
  simpa using flush_ok_of_appendOk kv.2 (hall kv hm)

theorem flushAll_ok (p : FrameProcessor)
    (hall : ∀ kv ∈ p.tracks, kv.2.stream.appendOk = true) :
    p.FlushProcessedFrames.2 = true := by
  simp only [FrameProcessor.FlushProcessedFrames]
  exact flushTracks_ok p.tracks hall

theorem appendOk_all_updateTrack (l : List (Nat × MseTrackBuffer)) (id : Nat)
    (g : MseTrackBuffer → MseTrackBuffer)
    (hg : ∀ tb, (g tb).stream.appendOk = tb.stream.appendOk)
    (hall : ∀ kv ∈ l, kv.2.stream.appendOk = true) :
    ∀ kv ∈ updateTrack l id g, kv.2.stream.appendOk = true := by
  intro kv hm
  unfold updateTrack at hm
  simp only [List.mem_map] at hm
  obtain ⟨kv0, hm0, rfl⟩ := hm
  by_cases hk : kv0.1 = id <;> simp [hk, hg, hall kv0 hm0]

theorem commitFrame_result (p' : FrameProcessor) (f : Frame) (a b c : Int)
    (tbx : MseTrackBuffer)
    (hf : FrameProcessor.FindTrack p'.tracks f.track_id = some tbx) :
    ∃ q, commitFrame p' f a b c = .done q f true ∧
      FrameProcessor.FindTrack q.tracks f.track_id =
        some (commitTransform f a b c tbx) := by
  refine ⟨_, rfl, ?_⟩
  show FrameProcessor.FindTrack
    (updateTrack p'.tracks f.track_id (commitTransform f a b c)) f.track_id = _
  rw [findTrack_updateTrack, hf]
  rfl

/-- A fresh segments-mode processor whose single track (id 1) is an audio
track waiting for a random access point. -/
def pX5 : FrameProcessor :=
  { sequence_mode := false, pending_notify_all_group_start := false,
    group_start_timestamp := none, group_end_timestamp := 0,
    timestamp_offset := 0, tracks := [(1, MseTrackBuffer.mk0 audioStream)],
    audio_preroll_buffer := none, sample_duration := 0, duration_updates := [] }

/-- An audio frame that is NOT marked as a keyframe, inside the append
window [0, 100). -/
def fX5 : Frame := mkFrame 0 0 10 false 1 .audio 1

/-- C5 counterexample: with the needs-random-access-point flag set on the
(audio) track, a non-keyframe audio frame is NOT dropped — `ProcessFrame`
force-marks audio frames as keyframes first, so the frame clears the flag
and is enqueued, contradicting the claim that every subsequent non-keyframe
frame is dropped without being enqueued. -/
theorem c5_counterexample :
    fX5.is_key_frame = false ∧
    (FrameProcessor.FindTrack pX5.tracks 1).map
      (fun q => q.needs_random_access_point) = some true ∧
    (pX5.ProcessFrame fX5 0 100).2.2 = true ∧
    (FrameProcessor.FindTrack (pX5.ProcessFrame fX5 0 100).1.tracks 1).map
      (fun q => q.processed_frames.length) = some 1 := by
  decide

/-- C5 (amended): while a track's needs-random-access-point flag is set
(with the track freshly reset: unset last decode timestamp), a well-formed
non-audio non-keyframe frame for that track (known matching track, set
PTS/DTS/duration, non-negative duration, non-negative post-offset DTS, no
pending sequence-mode group start, sink without partial trimming) is
dropped without error — `ProcessFrame` succeeds, the frame is not enqueued
and the flag stays set — while a keyframe inside the append window (with
working sinks) is accepted: it clears the flag and is enqueued.  (Audio
non-keyframes are instead force-marked as keyframes, see the
counterexample.) -/
theorem c5_amended_rap_gating (p : FrameProcessor) (f : Frame)
    (ws we pv dv du : Int) (tb : MseTrackBuffer)
    (htb : FrameProcessor.FindTrack p.tracks f.track_id = some tb)
    (hrap : tb.needs_random_access_point = true)
    (hldt : tb.last_decode_timestamp = none)
    (hsup : tb.stream.supportsPartialTrimming = false)
    (htype : f.type = tb.stream.type)
    (hnota : ¬ f.type = MediaType.audio)
    (hgs : p.group_start_timestamp = none)
    (hpts : f.pts = some pv) (hdts : f.dts = some dv) (hdur : f.duration = some du)
    (hdu : 0 ≤ du) (hdv : 0 ≤ dv + p.timestamp_offset) :
    (f.is_key_frame = false →
      (p.ProcessFrame f ws we).2.2 = true ∧
      (FrameProcessor.FindTrack (p.ProcessFrame f ws we).1.tracks f.track_id).map
        (fun q => q.processed_frames) = some tb.processed_frames ∧
      (FrameProcessor.FindTrack (p.ProcessFrame f ws we).1.tracks f.track_id).map
        (fun q => q.needs_random_access_point) = some true) ∧
    (f.is_key_frame = true → ws ≤ pv + p.timestamp_offset →
      pv + p.timestamp_offset + du ≤ we →
      (∀ kv ∈ p.tracks, kv.2.stream.appendOk = true) →
      (p.ProcessFrame f ws we).2.2 = true ∧
      ∃ q, FrameProcessor.FindTrack (p.ProcessFrame f ws we).1.tracks f.track_id =
          some q ∧ q.needs_random_access_point = false ∧ q.processed_frames ≠ []) := by
  have hfa : forceAudioKeyframe f = f := by
    unfold forceAudioKeyframe
    rw [if_neg]
    rintro ⟨h1, -⟩
    exact hnota h1
  have hap : applyPendingGroupStart p pv = p := by
    unfold applyPendingGroupStart
    rw [hgs]
  have hbody : processFrameLoopBody p f ws we =
      windowAndCommit p
        { f with pts := some (pv + p.timestamp_offset),
                 dts := some (dv + p.timestamp_offset) } tb
        (pv + p.timestamp_offset) (dv + p.timestamp_offset) du
        (pv + p.timestamp_offset + du) ws we := by
    simp only [processFrameLoopBody]
    rw [hfa, hpts, hdts, hdur]
    dsimp only
    rw [if_neg (by omega : ¬ du < 0), hap]
    rw [applyOffset_fst, applyOffset_snd]
    unfold lookupAndDiscontinuity
    rw [htb]
    dsimp only
    rw [if_neg (by rw [htype]; simp)]
    have hdc : discontinuityCond tb (dv + p.timestamp_offset) = false := by
      unfold discontinuityCond
      rw [hldt]
    rw [hdc]
    simp only [Bool.false_eq_true, if_false]
    simp only [trimAndCommit]
    rw [hsup]
    simp only [Bool.false_eq_true, if_false]
    rw [hdur]
  have hkeyF : ({ f with pts := some (pv + p.timestamp_offset),
                         dts := some (dv + p.timestamp_offset) } :
      Frame).is_key_frame = f.is_key_frame := rfl
  constructor
  · intro hkey
    by_cases hwin : pv + p.timestamp_offset < ws ∨ pv + p.timestamp_offset + du > we
    · have hdone : processFrameLoopBody p f ws we =
          .done { p with tracks := updateTrack p.tracks f.track_id fun tb2 =>
                    { tb2 with needs_random_access_point := true } }
            { f with pts := some (pv + p.timestamp_offset),
                     dts := some (dv + p.timestamp_offset) } true := by
        rw [hbody]
        simp only [windowAndCommit]
        rw [if_pos hwin]
      have hPF : p.ProcessFrame f ws we =
          ({ p with tracks := updateTrack p.tracks f.track_id fun tb2 =>
               { tb2 with needs_random_access_point := true } },
           { f with pts := some (pv + p.timestamp_offset),
                    dts := some (dv + p.timestamp_offset) }, true) := by
        unfold FrameProcessor.ProcessFrame
        rw [hdone]
      rw [hPF]
      refine ⟨rfl, ?_, ?_⟩ <;>
        · dsimp only
          rw [findTrack_updateTrack, htb]
          rfl
    · have hdone : processFrameLoopBody p f ws we =
          .done p { f with pts := some (pv + p.timestamp_offset),
                           dts := some (dv + p.timestamp_offset) } true := by
        rw [hbody]
        simp only [windowAndCommit]
        rw [if_neg hwin, if_neg (by omega : ¬ dv + p.timestamp_offset < 0),
          if_pos hrap, if_pos (hkeyF.trans hkey)]
      have hPF : p.ProcessFrame f ws we =
          (p, { f with pts := some (pv + p.timestamp_offset),
                       dts := some (dv + p.timestamp_offset) }, true) := by
        unfold FrameProcessor.ProcessFrame
        rw [hdone]
      rw [hPF]
      refine ⟨rfl, ?_, ?_⟩ <;>
        · dsimp only
          rw [htb]
          simp [hrap]
  · intro hkey hw1 hw2 hall
    have hbody2 : processFrameLoopBody p f ws we =
        signalAndCommit
          { p with tracks := updateTrack p.tracks f.track_id fun tb2 =>
              { tb2 with needs_random_access_point := false } }
          { f with pts := some (pv + p.timestamp_offset),
                   dts := some (dv + p.timestamp_offset) }
          { tb with needs_random_access_point := false }
          (dv + p.timestamp_offset) du (pv + p.timestamp_offset + du) := by
      rw [hbody]
      simp only [windowAndCommit]
      rw [if_neg (by omega), if_neg (by omega : ¬ dv + p.timestamp_offset < 0),
        if_pos hrap, if_neg (by rw [hkeyF, hkey]; simp)]
    set P2 : FrameProcessor :=
      { p with tracks := updateTrack p.tracks f.track_id fun tb2 =>
          { tb2 with needs_random_access_point := false } } with hP2
    set F2 : Frame :=
      { f with pts := some (pv + p.timestamp_offset),
               dts := some (dv + p.timestamp_offset) } with hF2
    set TB2 : MseTrackBuffer := { tb with needs_random_access_point := false }
      with hTB2
    have hallP2 : ∀ kv ∈ P2.tracks, kv.2.stream.appendOk = true :=
      appendOk_all_updateTrack p.tracks f.track_id
        (fun tb2 => { tb2 with needs_random_access_point := false })
        (fun _ => rfl) hall
    have hfl : P2.FlushProcessedFrames.2 = true := flushAll_ok P2 hallP2
    have hfind2 : FrameProcessor.FindTrack P2.tracks f.track_id = some TB2 := by
      have e1 := findTrack_updateTrack p.tracks f.track_id
        (fun tb2 => { tb2 with needs_random_access_point := false })
      rw [htb] at e1
      exact e1
    have hftid : F2.track_id = f.track_id := rfl
    by_cases hsig : P2.pending_notify_all_group_start = true ∨
        TB2.last_processed_decode_timestamp > dv + p.timestamp_offset
    · have hfindFl : FrameProcessor.FindTrack P2.FlushProcessedFrames.1.tracks
          f.track_id = some TB2.FlushProcessedFrames.1 := by
        have e1 := findTrack_map P2.tracks f.track_id
          (fun tb2 => tb2.FlushProcessedFrames.1)
        rw [hfind2] at e1
        exact e1
      by_cases hpend : P2.FlushProcessedFrames.1.pending_notify_all_group_start = true
      · have hfind3 : FrameProcessor.FindTrack
            ({ P2.FlushProcessedFrames.1.NotifyStartOfCodedFrameGroup
                (dv + p.timestamp_offset) with
                pending_notify_all_group_start := false }).tracks F2.track_id =
            some (TB2.FlushProcessedFrames.1.NotifyStartOfCodedFrameGroup
              (dv + p.timestamp_offset)) := by
          have e1 := findTrack_map P2.FlushProcessedFrames.1.tracks f.track_id
            (fun tb2 => tb2.NotifyStartOfCodedFrameGroup (dv + p.timestamp_offset))
          rw [hfindFl] at e1
          exact e1
        obtain ⟨q, hcf, hfq⟩ := commitFrame_result _ F2 (dv + p.timestamp_offset) du
          (pv + p.timestamp_offset + du) _ hfind3
        have hdone : processFrameLoopBody p f ws we = .done q F2 true := by
          rw [hbody2]
          simp only [signalAndCommit]
          rw [if_pos hsig, if_neg (by rw [hfl]; simp), if_pos hpend]
          exact hcf
        have hPF : p.ProcessFrame f ws we = (q, F2, true) := by
          unfold FrameProcessor.ProcessFrame
          rw [hdone]
        rw [hPF]
        refine ⟨rfl, _, by rw [← hftid]; exact hfq, ?_, ?_⟩
        · rw [commitTransform_needs, notify_needs, flushfn_needs]
        · rw [commitTransform_processed]
          simp
      · have hfind3 : FrameProcessor.FindTrack
            ({ P2.FlushProcessedFrames.1 with
                tracks := updateTrack P2.FlushProcessedFrames.1.tracks F2.track_id
                  fun tb2 => tb2.NotifyStartOfCodedFrameGroup
                    (dv + p.timestamp_offset) }).tracks F2.track_id =
            some (TB2.FlushProcessedFrames.1.NotifyStartOfCodedFrameGroup
              (dv + p.timestamp_offset)) := by
          have e1 := findTrack_updateTrack P2.FlushProcessedFrames.1.tracks
            F2.track_id
            (fun tb2 => tb2.NotifyStartOfCodedFrameGroup (dv + p.timestamp_offset))
          rw [hftid, hfindFl] at e1
          exact e1
        obtain ⟨q, hcf, hfq⟩ := commitFrame_result _ F2 (dv + p.timestamp_offset) du
          (pv + p.timestamp_offset + du) _ hfind3
        have hdone : processFrameLoopBody p f ws we = .done q F2 true := by
          rw [hbody2]
          simp only [signalAndCommit]
          rw [if_pos hsig, if_neg (by rw [hfl]; simp), if_neg hpend]
          exact hcf
        have hPF : p.ProcessFrame f ws we = (q, F2, true) := by
          unfold FrameProcessor.ProcessFrame
          rw [hdone]
        rw [hPF]
        refine ⟨rfl, _, by rw [← hftid]; exact hfq, ?_, ?_⟩
        · rw [commitTransform_needs, notify_needs, flushfn_needs]
        · rw [commitTransform_processed]
          simp
    · have hfind2F : FrameProcessor.FindTrack P2.tracks F2.track_id = some TB2 := by
        rw [hftid]
        exact hfind2
      obtain ⟨q, hcf, hfq⟩ := commitFrame_result P2 F2 (dv + p.timestamp_offset) du
        (pv + p.timestamp_offset + du) TB2 hfind2F
      have hdone : processFrameLoopBody p f ws we = .done q F2 true := by
        rw [hbody2]
        simp only [signalAndCommit]
        rw [if_neg hsig]
        exact hcf
      have hPF : p.ProcessFrame f ws we = (q, F2, true) := by
        unfold FrameProcessor.ProcessFrame
        rw [hdone]
      rw [hPF]
      refine ⟨rfl, _, hfq, ?_, ?_⟩
      · rw [commitTransform_needs]
      · rw [commitTransform_processed]
        simp

/-- A fresh segments-mode processor with one registered video track waiting
for a random access point. -/
def pW5 : FrameProcessor :=
  { sequence_mode := false, pending_notify_all_group_start := false,
    group_start_timestamp := none, group_end_timestamp := 0,
    timestamp_offset := 0, tracks := [(1, MseTrackBuffer.mk0 videoStream)],
    audio_preroll_buffer := none, sample_duration := 0, duration_updates := [] }

/-- A well-formed video NON-keyframe on track 1. -/
def fW5 : Frame := mkFrame 1 1 5 false 1 .video 2

theorem c5_witness :
    (fW5.is_key_frame = false →
      (pW5.ProcessFrame fW5 0 100).2.2 = true ∧
      (FrameProcessor.FindTrack (pW5.ProcessFrame fW5 0 100).1.tracks
          fW5.track_id).map (fun q => q.processed_frames) =
        some (MseTrackBuffer.mk0 videoStream).processed_frames ∧
      (FrameProcessor.FindTrack (pW5.ProcessFrame fW5 0 100).1.tracks
          fW5.track_id).map (fun q => q.needs_random_access_point) = some true) ∧
    (fW5.is_key_frame = true → (0 : Int) ≤ 1 + pW5.timestamp_offset →
      1 + pW5.timestamp_offset + 5 ≤ 100 →
      (∀ kv ∈ pW5.tracks, kv.2.stream.appendOk = true) →
      (pW5.ProcessFrame fW5 0 100).2.2 = true ∧
      ∃ q, FrameProcessor.FindTrack (pW5.ProcessFrame fW5 0 100).1.tracks
          fW5.track_id = some q ∧ q.needs_random_access_point = false ∧
          q.processed_frames ≠ []) :=
  c5_amended_rap_gating pW5 fW5 0 100 1 1 5 (MseTrackBuffer.mk0 videoStream)
    rfl rfl rfl rfl rfl (by decide) rfl rfl rfl rfl (by decide) (by decide)

/-- C4: `MseTrackBuffer::Reset` unsets the last decode timestamp, last frame
duration, highest presentation timestamp and last keyframe presentation
timestamp, sets the needs-random-access-point flag to true, and leaves the
last-processed decode timestamp (used for cross-track discontinuity
detection), the stream and the staging queue unchanged. -/
theorem c4_reset_fields (tb : MseTrackBuffer) :
    tb.Reset.last_decode_timestamp = none ∧
    tb.Reset.last_frame_duration = none ∧
    tb.Reset.highest_presentation_timestamp = none ∧
    tb.Reset.last_keyframe_presentation_timestamp = none ∧
    tb.Reset.needs_random_access_point = true ∧
    tb.Reset.last_processed_decode_timestamp = tb.last_processed_decode_timestamp ∧
    tb.Reset.stream = tb.stream ∧
    tb.Reset.processed_frames = tb.processed_frames := by
  refine ⟨rfl, rfl, rfl, rfl, rfl, rfl, rfl, rfl⟩

/-! ### Range well-formedness and the claims about SourceBufferRangeByPts -/

/-- Whether the first buffer (if any) is a keyframe. -/
def headKey : List Frame → Bool
  | [] => true
  | b :: _ => b.is_key_frame

/-- Well-formedness of a range as maintained by its constructor and
operations: nonempty, starting at a keyframe, with the keyframe map being
exactly the index of the keyframes of the buffer list (offset by the index
base) and the byte count being the sum of the buffer sizes. -/
def RangeWF (r : SourceBufferRangeByPts) : Prop :=
  r.buffers ≠ [] ∧
  headKey r.buffers = true ∧
  r.keyframe_map = kfMap r.buffers r.keyframe_map_index_base ∧
  r.size_in_bytes = sumSizes r.buffers

theorem kfMap_cons_key (b : Frame) (t : List Frame) (i : Nat)
    (h : b.is_key_frame = true) :
    kfMap (b :: t) i = (b.dtsD, i) :: kfMap t (i + 1) := by
  simp only [kfMap, h, if_true]

theorem kfLowerBound_head (e : Int × Nat) (m : List (Int × Nat)) (ts : Int)
    (h : ts ≤ e.1) : kfLowerBound (e :: m) ts = some e := by
  simp only [kfLowerBound]
  rw [if_pos h]

theorem kfAtOrBefore_head_lt (e : Int × Nat) (m : List (Int × Nat)) (ts : Int)
    (h1 : ts ≤ e.1) (h2 : ¬ e.1 = ts) :
    GetFirstKeyframeAtOrBefore (e :: m) ts = some e := by
  unfold GetFirstKeyframeAtOrBefore
  simp only [kfAtOrBeforeAux]
  rw [if_pos h1, if_neg h2]

/-- C8 (amended): for a timestamp strictly inside the gap between the
range's explicit start and the first buffer's decode timestamp,
`NextKeyframeTimestamp` pretends a keyframe exists exactly at the queried
timestamp and returns it; `KeyframeBeforeTimestamp`, however, has no such
front-gap special case and returns the first real keyframe's decode
timestamp (the first buffer's DTS, which lies after the queried timestamp),
not the queried timestamp. -/
theorem c8_amended_front_gap (r : SourceBufferRangeByPts) (rs ts : Int)
    (hwf : RangeWF r) (hrs : r.range_start = some rs)
    (h1 : rs < ts) (h2 : ts < (r.buffers.head?.map Frame.dtsD).getD 0)
    (h3 : ts < GetBufferedEndTimestamp r) :
    NextKeyframeTimestamp r ts = some ts ∧
    KeyframeBeforeTimestamp r ts =
      some ((r.buffers.head?.map Frame.dtsD).getD 0) := by
  obtain ⟨hne, hh, hmap, -⟩ := hwf
  obtain ⟨b0, t, hb⟩ := List.exists_cons_of_ne_nil hne
  rw [hb] at hh
  have hk0 : b0.is_key_frame = true := hh
  have hfront : (r.buffers.head?.map Frame.dtsD).getD 0 = b0.dtsD := by
    rw [hb]
    rfl
  rw [hfront] at h2 ⊢
  have hmap2 : r.keyframe_map =
      (b0.dtsD, r.keyframe_map_index_base) ::
        kfMap t (r.keyframe_map_index_base + 1) := by
    rw [hmap, hb, kfMap_cons_key b0 t _ hk0]
  have hstart : GetStartTimestamp r = rs := by
    unfold GetStartTimestamp
    rw [hrs]
  constructor
  · unfold NextKeyframeTimestamp
    rw [if_neg (by rw [hstart]; omega)]
    rw [hmap2, kfLowerBound_head _ _ _ (le_of_lt h2)]
    dsimp only
    rw [if_pos ⟨rfl, by rw [hrs]; simp only [decide_eq_true_eq]; omega,
      le_of_lt h2 |>.lt_of_ne (by intro hcon; omega) |> fun hx => h2⟩]
  · unfold KeyframeBeforeTimestamp
    rw [if_neg (by rw [hstart]; omega)]
    rw [hmap2, kfAtOrBefore_head_lt _ _ _ (le_of_lt h2) (by omega)]
    rfl

/-- A one-buffer range whose explicit start (0) lies before the first
buffer's DTS (10): timestamps in (0, 10) are inside the front gap. -/
def rX8 : SourceBufferRangeByPts :=
  { buffers := [mkFrame 10 10 10 true 7 .video 1], keyframe_map := [(10, 0)],
    keyframe_map_index_base := 0, range_start := some 0, size_in_bytes := 1,
    highest_end := some 20, next_buffer_index := -1, gap_allow := false,
    fudge := 10, approx_dur := 1 }

/-- C8 counterexample: for timestamp 5 strictly inside the front gap
(between range start 0 and first-buffer DTS 10), `KeyframeBeforeTimestamp`
returns 10 (the first real keyframe's timestamp), not the queried
timestamp 5 that the claim asserts. -/
theorem c8_counterexample :
    rX8.range_start = some 0 ∧
    (rX8.buffers.head?.map Frame.dtsD).getD 0 = 10 ∧
    NextKeyframeTimestamp rX8 5 = some 5 ∧
    KeyframeBeforeTimestamp rX8 5 = some 10 ∧
    KeyframeBeforeTimestamp rX8 5 ≠ some 5 := by
  decide

theorem c8_witness :
    NextKeyframeTimestamp rX8 3 = some 3 ∧
    KeyframeBeforeTimestamp rX8 3 =
      some ((rX8.buffers.head?.map Frame.dtsD).getD 0) :=
  c8_amended_front_gap rX8 0 3 ⟨by decide, by decide, by decide, by decide⟩ rfl
    (by decide) (by decide) (by decide)

/-- The scan loop of `GetBuffersInRange` on buffers with set, positive
durations never takes the unsupported-duration early return; it appends to
the output exactly frames that overlap [start, end) and are not
end-of-stream markers. -/
theorem buffersInRangeLoop_spec (s e : Int) :
    ∀ (l : List Frame) (acc : List Frame),
      (∀ b ∈ l, b.duration ≠ none ∧ 0 < b.durD) →
      ∃ extra, buffersInRangeLoop l s e acc = (acc ++ extra, true) ∧
        ∀ b ∈ extra, b.ptsD < e ∧ s < b.ptsD + b.durD ∧ b.end_of_stream = false := by
  intro l
  induction l with
  | nil =>
      intro acc _
      exact ⟨[], by simp [buffersInRangeLoop], by simp⟩
  | cons b t ih =>
      intro acc hdur
      obtain ⟨hd, hdpos⟩ := hdur b (by simp)
      have hdb : ¬(b.duration = none ∨ b.durD ≤ 0) := by
        push_neg
        exact ⟨hd, by omega⟩
      simp only [buffersInRangeLoop]
      rw [if_neg hdb]
      by_cases hbrk : b.end_of_stream = true ∨ b.ptsD ≥ e
      · rw [if_pos hbrk]
        exact ⟨[], by simp, by simp⟩
      · rw [if_neg hbrk]
        by_cases hskip : b.ptsD + b.durD ≤ s
        · rw [if_pos hskip]
          exact ih acc fun b' hb' => hdur b' (List.mem_cons_of_mem b hb')
        · rw [if_neg hskip]
          obtain ⟨extra, heq, hprop⟩ :=
            ih (acc ++ [b]) fun b' hb' => hdur b' (List.mem_cons_of_mem b hb')
          push_neg at hbrk hskip
          refine ⟨b :: extra, ?_, ?_⟩
          · rw [heq]
            simp
          · intro b' hb'
            rcases List.mem_cons.mp hb' with rfl | hb'
            · exact ⟨by omega, by omega, by simpa using hbrk.1⟩
            · exact hprop b' hb'

/-- C10: on a range whose buffers all have set, strictly positive
durations, `GetBuffersInRange` returns success exactly when it appended at
least one buffer to the output queue (a call that finds nothing overlapping
returns failure rather than success with an empty result), and every
appended buffer genuinely overlaps [start, end). -/
theorem c10_get_buffers_in_range (r : SourceBufferRangeByPts) (s e : Int)
    (acc : List Frame)
    (hdur : ∀ b ∈ r.buffers, b.duration ≠ none ∧ 0 < b.durD) :
    ((GetBuffersInRange r s e acc).2 = true ↔
      acc.length < (GetBuffersInRange r s e acc).1.length) ∧
    ∃ extra, (GetBuffersInRange r s e acc).1 = acc ++ extra ∧
      ∀ b ∈ extra, b.ptsD < e ∧ s < b.ptsD + b.durD ∧ b.end_of_stream = false := by
  unfold GetBuffersInRange
  rcases hkb : KeyframeBeforeTimestamp r s with _ | ft
  · refine ⟨by simp, ⟨[], by simp, by simp⟩⟩
  · obtain ⟨extra, heq, hprop⟩ :=
      buffersInRangeLoop_spec s e (r.buffers.drop (bufLowerBoundIdx r.buffers ft))
        acc fun b hb => hdur b (List.mem_of_mem_drop hb)
    dsimp only
    rw [heq]
    rw [if_neg (by simp)]
    refine ⟨?_, extra, by simp, hprop⟩
    simp

/-- A two-GOP range with unit-size, unit-duration frames at DTS 0..3. -/
def rX10 : SourceBufferRangeByPts :=
  { buffers := [mkFrame 0 0 1 true 7 .video 1, mkFrame 1 1 1 false 7 .video 1,
                mkFrame 2 2 1 true 7 .video 1, mkFrame 3 3 1 false 7 .video 1],
    keyframe_map := [(0, 0), (2, 2)], keyframe_map_index_base := 0,
    range_start := none, size_in_bytes := 4, highest_end := some 4,
    next_buffer_index := -1, gap_allow := false, fudge := 10, approx_dur := 1 }

theorem c10_witness :
    ((GetBuffersInRange rX10 1 3 []).2 = true ↔
      (0 : Nat) < (GetBuffersInRange rX10 1 3 []).1.length) ∧
    ∃ extra, (GetBuffersInRange rX10 1 3 []).1 = [] ++ extra ∧
      ∀ b ∈ extra, b.ptsD < 3 ∧ 1 < b.ptsD + b.durD ∧ b.end_of_stream = false := by
  have h := c10_get_buffers_in_range rX10 1 3 [] (by decide)
  exact h

theorem appendBuffersLoop_buffers (bufs : List Frame) :
    ∀ r : SourceBufferRangeByPts,
      (appendBuffersLoop r bufs).buffers = r.buffers ++ bufs := by
  induction bufs with
  | nil =>
      intro r
      simp [appendBuffersLoop]
  | cons b t ih =>
      intro r
      simp only [appendBuffersLoop]
      rw [ih]
      simp [appendOneBuffer]

theorem AppendBuffersToEnd_buffers (r : SourceBufferRangeByPts)
    (bufs : List Frame) (gs : Option Int) (r' : SourceBufferRangeByPts)
    (h : AppendBuffersToEnd r bufs gs = some r') :
    r'.buffers = r.buffers ++ bufs := by
  unfold AppendBuffersToEnd at h
  split at h
  · rw [← Option.some.inj h]
    exact appendBuffersLoop_buffers bufs r
  · exact Option.noConfusion h

theorem mkRange_buffers (ga : Bool) (fu ad : Int) (bufs : List Frame)
    (gs : Option Int) (r' : SourceBufferRangeByPts)
    (h : mkSourceBufferRangeByPts ga fu ad bufs gs = some r') :
    r'.buffers = bufs := by
  unfold mkSourceBufferRangeByPts at h
  split at h
  · exact Option.noConfusion h
  · simpa using AppendBuffersToEnd_buffers _ _ _ _ h

/-- Inversion of a successful split: the original range keeps a prefix of
the buffers and the split-off range carries exactly the matching suffix. -/
theorem splitRange_buffers (r : SourceBufferRangeByPts) (ts : Int)
    (r1 r2 : SourceBufferRangeByPts)
    (h : SplitRange r ts = some (r1, some r2)) :
    ∃ ki, r1.buffers = r.buffers.take ki ∧ r2.buffers = r.buffers.drop ki := by
  simp only [SplitRange] at h
  split at h
  · exact Option.noConfusion h
  · split at h
    · simp at h
    · split at h
      · exact Option.noConfusion h
      · split at h
        · exact Option.noConfusion h
        · split at h
          · exact Option.noConfusion h
          · rename_i split0 hmk
            have hsb := mkRange_buffers _ _ _ _ _ _ hmk
            split at h
            · split at h
              · exact Option.noConfusion h
              · simp only [Option.some.injEq, Prod.mk.injEq] at h
                obtain ⟨h1, h2⟩ := h
                subst h1
                subst h2
                exact ⟨_, rfl, hsb⟩
            · simp only [Option.some.injEq, Prod.mk.injEq] at h
              obtain ⟨h1, h2⟩ := h
              subst h1
              subst h2
              exact ⟨_, rfl, hsb⟩

/-- C7: splitting a range at a timestamp with a keyframe at or after it and
then appending the split-off range back to the end of the original (when
the contiguity check of `AppendBuffersToEnd` passes) restores the original
frame sequence, frame for frame. -/
theorem c7_split_append_round_trip (r : SourceBufferRangeByPts) (ts : Int)
    (r1 r2 : SourceBufferRangeByPts)
    (hsplit : SplitRange r ts = some (r1, some r2))
    (hcan : r1.buffers = [] ∨ CanAppendBuffersToEnd r1 r2.buffers none = true) :
    ∃ r3, AppendRangeToEnd r1 r2 false = some r3 ∧ r3.buffers = r.buffers := by
  obtain ⟨ki, h1, h2⟩ := splitRange_buffers r ts r1 r2 hsplit
  unfold AppendRangeToEnd
  rw [if_neg (by simp)]
  unfold AppendBuffersToEnd
  rw [if_pos hcan]
  refine ⟨_, rfl, ?_⟩
  rw [appendBuffersLoop_buffers, h1, h2, List.take_append_drop]

/-- A two-GOP range with frames at DTS 0..3 (keyframes at 0 and 2). -/
def rX7 : SourceBufferRangeByPts :=
  { buffers := [mkFrame 0 0 1 true 7 .video 1, mkFrame 1 1 1 false 7 .video 1,
                mkFrame 2 2 1 true 7 .video 1, mkFrame 3 3 1 false 7 .video 1],
    keyframe_map := [(0, 0), (2, 2)], keyframe_map_index_base := 0,
    range_start := none, size_in_bytes := 4, highest_end := some 4,
    next_buffer_index := -1, gap_allow := false, fudge := 10, approx_dur := 1 }

/-- The half kept by splitting `rX7` at timestamp 2. -/
def r1X7 : SourceBufferRangeByPts :=
  { buffers := [mkFrame 0 0 1 true 7 .video 1, mkFrame 1 1 1 false 7 .video 1],
    keyframe_map := [(0, 0)], keyframe_map_index_base := 0,
    range_start := none, size_in_bytes := 2, highest_end := some 2,
    next_buffer_index := -1, gap_allow := false, fudge := 10, approx_dur := 1 }

/-- The half split off from `rX7` at timestamp 2. -/
def r2X7 : SourceBufferRangeByPts :=
  { buffers := [mkFrame 2 2 1 true 7 .video 1, mkFrame 3 3 1 false 7 .video 1],
    keyframe_map := [(2, 0)], keyframe_map_index_base := 0,
    range_start := none, size_in_bytes := 2, highest_end := some 4,
    next_buffer_index := -1, gap_allow := false, fudge := 10, approx_dur := 1 }

theorem c7_witness :
    ∃ r3, AppendRangeToEnd r1X7 r2X7 false = some r3 ∧ r3.buffers = rX7.buffers :=
  c7_split_append_round_trip rX7 2 r1X7 r2X7 (by decide) (by decide)

theorem sumSizes_append (a b : List Frame) :
    sumSizes (a ++ b) = sumSizes a + sumSizes b := by
  induction a with
  | nil => simp [sumSizes]
  | cons x t ih => simp [sumSizes, ih]; omega

theorem kfMap_eq_nil (t : List Frame) (i : Nat) (h : kfMap t i = []) :
    ∀ x ∈ t, x.is_key_frame = false := by
  induction t generalizing i with
  | nil => simp
  | cons b t ih =>
      intro x hx
      cases hb : b.is_key_frame with
      | true => simp [kfMap, hb] at h
      | false =>
          simp only [kfMap, hb] at h
          simp only [Bool.false_eq_true, if_false] at h
          rcases List.mem_cons.mp hx with rfl | hx'
          · exact hb
          · exact ih (i + 1) h x hx'

/-- The head of a keyframe map locates the first keyframe: everything before
it is a non-keyframe, and the rest of the map indexes the frames after it. -/
theorem kfMap_head (t : List Frame) (i : Nat) (k : Int) (j : Nat)
    (rest : List (Int × Nat)) (h : kfMap t i = (k, j) :: rest) :
    ∃ u c v, t = u ++ c :: v ∧ i + u.length = j ∧
      (∀ x ∈ u, x.is_key_frame = false) ∧ c.is_key_frame = true ∧
      c.dtsD = k ∧ rest = kfMap v (j + 1) := by
  induction t generalizing i with
  | nil => simp [kfMap] at h
  | cons b t ih =>
      cases hb : b.is_key_frame with
      | false =>
          simp only [kfMap, hb, Bool.false_eq_true, if_false] at h
          obtain ⟨u, c, v, ht, hlen, hu, hc, hck, hrest⟩ := ih (i + 1) h
          refine ⟨b :: u, c, v, by rw [ht]; rfl, ?_, ?_, hc, hck, hrest⟩
          · simp only [List.length_cons]
            omega
          · intro x hx
            rcases List.mem_cons.mp hx with rfl | hx'
            · exact hb
            · exact hu x hx'
      | true =>
          simp only [kfMap, hb, if_true] at h
          obtain ⟨hk, hj, hrest⟩ : b.dtsD = k ∧ i = j ∧ kfMap t (i + 1) = rest := by
            have h1 := List.head_eq_of_cons_eq h
            have h2 := List.tail_eq_of_cons_eq h
            exact ⟨congrArg Prod.fst h1, congrArg Prod.snd h1, h2⟩
          refine ⟨[], b, t, rfl, by simpa using hj, by simp, hb, hk, ?_⟩
          rw [← hrest, hj]

/-- The last entry of a keyframe map locates the last keyframe: everything
after it is a non-keyframe, and dropping the entry leaves exactly the map
of the frames before it. -/
theorem kfMap_last (t : List Frame) (i : Nat) (k : Int) (j : Nat)
    (h : (kfMap t i).getLast? = some (k, j)) :
    ∃ u c v, t = u ++ c :: v ∧ i + u.length = j ∧ c.is_key_frame = true ∧
      c.dtsD = k ∧ (∀ x ∈ v, x.is_key_frame = false) ∧
      (kfMap t i).dropLast = kfMap u i := by
  induction t generalizing i with
  | nil => simp [kfMap] at h
  | cons b t ih =>
      cases hb : b.is_key_frame with
      | false =>
          have hmap : kfMap (b :: t) i = kfMap t (i + 1) := by
            simp [kfMap, hb]
          rw [hmap] at h
          obtain ⟨u, c, v, ht, hlen, hc, hck, hv, hdrop⟩ := ih (i + 1) h
          refine ⟨b :: u, c, v, by rw [ht]; rfl, ?_, hc, hck, hv, ?_⟩
          · simp only [List.length_cons]
            omega
          · rw [hmap, hdrop]
            simp [kfMap, hb]
      | true =>
          have hmap : kfMap (b :: t) i = (b.dtsD, i) :: kfMap t (i + 1) :=
            kfMap_cons_key b t i hb
          rw [hmap] at h
          cases hrest : kfMap t (i + 1) with
          | nil =>
              rw [hrest] at h
              simp only [List.getLast?_singleton, Option.some.injEq] at h
              obtain ⟨hk, hj⟩ : b.dtsD = k ∧ i = j :=
                ⟨congrArg Prod.fst h, congrArg Prod.snd h⟩
              refine ⟨[], b, t, rfl, by simpa using hj, hb, hk,
                kfMap_eq_nil t (i + 1) hrest, ?_⟩
              rw [hmap, hrest]
              rfl
          | cons e rest2 =>
              rw [hrest] at h
              rw [List.getLast?_cons_cons] at h
              rw [← hrest] at h
              obtain ⟨u, c, v, ht, hlen, hc, hck, hv, hdrop⟩ := ih (i + 1) h
              refine ⟨b :: u, c, v, by rw [ht]; rfl, ?_, hc, hck, hv, ?_⟩
              · simp only [List.length_cons]
                omega
              · rw [hmap, hrest, List.dropLast_cons₂, ← hrest, hdrop]
                simp [kfMap, hb]

/-- C6 (corrected): under range well-formedness and with no current
playback position, `DeleteGOPFromFront` deletes exactly the first
keyframe-delimited GOP (the remaining range starts at a keyframe or is
empty, the range-start gap is invalidated, bytes are decreased by exactly
the deleted frames' sizes, and the cached end time is cleared only when the
range empties), and `DeleteGOPFromBack` deletes exactly the last
keyframe-delimited GOP (bytes exact, end time recomputed from the new last
GOP) — but the remaining range's last frame need not be a keyframe. -/
theorem c6_amended_gop_eviction (r : SourceBufferRangeByPts)
    (hwf : RangeWF r) (hnext : r.next_buffer_index = -1) :
    (∃ rf df, DeleteGOPFromFront r = some (rf, df, sumSizes df) ∧
        r.buffers = df ++ rf.buffers ∧ df ≠ [] ∧ headKey df = true ∧
        (∀ x ∈ df.tail, x.is_key_frame = false) ∧
        headKey rf.buffers = true ∧
        rf.size_in_bytes = sumSizes rf.buffers ∧
        rf.range_start = none ∧
        rf.highest_end = (if rf.buffers = [] then none else r.highest_end)) ∧
    (∃ rb db, DeleteGOPFromBack r = some (rb, db, sumSizes db) ∧
        r.buffers = rb.buffers ++ db ∧ db ≠ [] ∧ headKey db = true ∧
        (∀ x ∈ db.tail, x.is_key_frame = false) ∧
        rb.size_in_bytes = sumSizes rb.buffers ∧
        UpdateEndTimeUsingLastGOP rb.buffers rb.keyframe_map
          r.keyframe_map_index_base = some rb.highest_end) := by
  obtain ⟨hne, hhk, hmap, hsz⟩ := hwf
  obtain ⟨bufs, kmap, base, rs, sz, hi, nx, ga, fu, ad⟩ := r
  simp only at hne hhk hmap hsz hnext ⊢
  subst hmap
  subst hsz
  subst hnext
  cases bufs with
  | nil => exact absurd rfl hne
  | cons b t =>
      simp only [headKey] at hhk
      rw [kfMap_cons_key b t base hhk]
      constructor
      · -- DeleteGOPFromFront
        cases hrest : kfMap t (base + 1) with
        | nil =>
            simp only [DeleteGOPFromFront]
            rw [if_neg (by omega)]
            rw [List.take_length, List.drop_length]
            refine ⟨_, b :: t, rfl, by simp, by simp, ?_, ?_, ?_, ?_, ?_, ?_⟩
            · simp only [headKey]
              exact hhk
            · exact kfMap_eq_nil t (base + 1) hrest
            · rfl
            · simp [sumSizes]
            · simp
            · simp
        | cons e rest2 =>
            obtain ⟨k, j⟩ := e
            obtain ⟨u, c, v, ht, hlen, hu, hc, hck, hrest2⟩ :=
              kfMap_head t (base + 1) k j rest2 hrest
            subst ht
            simp only [DeleteGOPFromFront]
            have hend : j - base = u.length + 1 := by omega
            rw [hend, if_neg (by omega), List.take_succ_cons, List.take_left,
              List.drop_succ_cons, List.drop_left]
            refine ⟨_, b :: u, rfl, by simp, by simp, ?_, ?_, ?_, ?_, ?_, ?_⟩
            · simp only [headKey]
              exact hhk
            · exact hu
            · simp only [headKey]
              exact hc
            · have h1 := sumSizes_append u (c :: v)
              simp only [sumSizes] at h1 ⊢
              omega
            · simp
            · simp
      · -- DeleteGOPFromBack
        rcases hlast : ((b.dtsD, base) :: kfMap t (base + 1)).getLast? with _ | back
        · simp at hlast
        · obtain ⟨k', j'⟩ := back
          obtain ⟨u, c, v, hbt, hlen, hc, hck, hv, hdrop⟩ :=
            kfMap_last (b :: t) base k' j'
              (by rw [kfMap_cons_key b t base hhk]; exact hlast)
          rw [kfMap_cons_key b t base hhk] at hdrop
          simp only [DeleteGOPFromBack]
          rw [hlast]
          dsimp only
          have hgoal : j' - base = u.length := by omega
          have hlen2 : (b :: t).length = u.length + (c :: v).length := by
            rw [hbt]
            simp
          have hnlt : ¬ (u ++ c :: v).length < u.length := by
            simp only [List.length_append, List.length_cons]
            omega
          rw [hgoal, hbt, if_neg hnlt, List.take_left, List.drop_left, hdrop]
          cases u with
          | nil =>
              refine ⟨_, c :: v, rfl, rfl, by simp, ?_, hv, ?_, ?_⟩
              · simp only [headKey]
                exact hc
              · simp [sumSizes]
              · rfl
          | cons u0 u' =>
              obtain ⟨hbu, htu⟩ : b = u0 ∧ t = u' ++ c :: v := by
                have h1 := List.head_eq_of_cons_eq hbt
                have h2 := List.tail_eq_of_cons_eq hbt
                exact ⟨h1, h2⟩
              have hu0 : u0.is_key_frame = true := hbu ▸ hhk
              rw [kfMap_cons_key u0 u' base hu0]
              rcases hlast2 : ((u0.dtsD, base) :: kfMap u' (base + 1)).getLast?
                with _ | e'
              · simp at hlast2
              · simp only [UpdateEndTimeUsingLastGOP]
                rw [if_neg (by simp), hlast2]
                refine ⟨_, c :: v, rfl, rfl, by simp, ?_, hv, ?_, ?_⟩
                · simp only [headKey]
                  exact hc
                · have h1 := sumSizes_append (u0 :: u') (c :: v)
                  simp only [sumSizes] at h1 ⊢
                  omega
                · simp only [UpdateEndTimeUsingLastGOP]
                  rw [if_neg (by simp), hlast2]

/-- C6 counterexample: a well-formed two-GOP range on which
`DeleteGOPFromBack` succeeds but leaves a nonempty range whose last frame
is NOT a keyframe (the dependent frames of the previous GOP remain), so
"the resulting range's last remaining frame is a keyframe" fails. -/
def rC6 : SourceBufferRangeByPts :=
  { buffers := [mkFrame 0 0 1 true 7 .video 1, mkFrame 1 1 1 false 7 .video 1,
                mkFrame 2 2 1 true 7 .video 1, mkFrame 3 3 1 false 7 .video 1],
    keyframe_map := [(0, 0), (2, 2)], keyframe_map_index_base := 0,
    range_start := none, size_in_bytes := 4, highest_end := some 4,
    next_buffer_index := -1, gap_allow := false, fudge := 10, approx_dur := 1 }

theorem c6_counterexample :
    (rC6.buffers ≠ [] ∧ headKey rC6.buffers = true ∧
     rC6.keyframe_map = kfMap rC6.buffers rC6.keyframe_map_index_base ∧
     rC6.size_in_bytes = sumSizes rC6.buffers) ∧
    ∃ p, DeleteGOPFromBack rC6 = some p ∧ p.1.buffers ≠ [] ∧
      p.1.buffers.getLast?.map Frame.is_key_frame = some false :=
  ⟨⟨by decide, by decide, by decide, by decide⟩, _, rfl, by decide, by decide⟩

theorem c6_witness :
    RangeWF rC6 ∧ rC6.next_buffer_index = -1 ∧
    ((∃ rf df, DeleteGOPFromFront rC6 = some (rf, df, sumSizes df) ∧
        rC6.buffers = df ++ rf.buffers ∧ df ≠ [] ∧ headKey df = true ∧
        (∀ x ∈ df.tail, x.is_key_frame = false) ∧
        headKey rf.buffers = true ∧
        rf.size_in_bytes = sumSizes rf.buffers ∧
        rf.range_start = none ∧
        rf.highest_end = (if rf.buffers = [] then none else rC6.highest_end)) ∧
     (∃ rb db, DeleteGOPFromBack rC6 = some (rb, db, sumSizes db) ∧
        rC6.buffers = rb.buffers ++ db ∧ db ≠ [] ∧ headKey db = true ∧
        (∀ x ∈ db.tail, x.is_key_frame = false) ∧
        rb.size_in_bytes = sumSizes rb.buffers ∧
        UpdateEndTimeUsingLastGOP rb.buffers rb.keyframe_map
          rC6.keyframe_map_index_base = some rb.highest_end)) := by
  have hwf : RangeWF rC6 := ⟨by decide, by decide, by decide, by decide⟩
  exact ⟨hwf, by decide, c6_amended_gop_eviction rC6 hwf (by decide)⟩

end Media
